import Mathlib

/-!
Shallow embedding of the signing and verification core of this repository
(the `Crypto` class: algorithm registry, canonical digest, JWS signer and
verifier), together with the byte and string encodings it relies on.

Modelling conventions:
* byte arrays (`Uint8Array`) are `List Nat` with values below 256 where it
  matters;
* JavaScript strings are Lean `String`, manipulated through `String.data`;
* the external cryptographic algorithm objects (`EcdsaAlgorithm`,
  `EdDsaAlgorithm`), the key-conversion routine `Jose.jwkToCryptoKey` and the
  DID-resolution collaborator `deferenceDidUrl` are parameters (`Primitives`,
  `resolver`), since they are external collaborators of the core;
* a thrown JavaScript `Error` is `Except.error` carrying the message string;
  failures raised inside the external conversion libraries are modelled by
  fixed message strings defined below.
-/

/-- Characters that are awkward as literals, by code point. -/
def quoteC : Char := Char.ofNat 34

def backslashC : Char := Char.ofNat 92

def lbraceC : Char := Char.ofNat 123

def rbraceC : Char := Char.ofNat 125

/-- JavaScript `String.prototype.split` with a one-character separator:
splits on every occurrence, keeping empty pieces, and always returns at
least one piece. -/
def splitC (sep : Char) : List Char → List (List Char)
  | [] => [[]]
  | c :: cs =>
    if c = sep then [] :: splitC sep cs
    else
      match splitC sep cs with
      | [] => [[c]]
      | g :: gs => (c :: g) :: gs

/-- `kid.split(sep)[0]`: the prefix of the list before the first separator. -/
def headSeg (sep : Char) (l : List Char) : List Char :=
  (splitC sep l).headD []

/-- The base64url alphabet (RFC 4648 section 5), as used by
`Convert.uint8Array(...).toBase64Url()` (unpadded). -/
def b64Alphabet : List Char :=
  "ABCDEFGHIJKLMNOPQRSTUVWXYZabcdefghijklmnopqrstuvwxyz0123456789-_".data

def b64Char (n : Nat) : Char := b64Alphabet.getD n '_'

/-- Index of a character in the base64url alphabet. -/
def b64Val (c : Char) : Option Nat := b64Alphabet.findIdx? (· = c)

/-- Unpadded base64url encoding of a byte list. -/
def encodeB64 : List Nat → List Char
  | [] => []
  | [a] => [b64Char (a / 4), b64Char (a % 4 * 16)]
  | [a, b] => [b64Char (a / 4), b64Char (a % 4 * 16 + b / 16), b64Char (b % 16 * 4)]
  | a :: b :: c :: rest =>
    b64Char (a / 4) :: b64Char (a % 4 * 16 + b / 16) ::
      b64Char (b % 16 * 4 + c / 64) :: b64Char (c % 64) :: encodeB64 rest

/-- Unpadded base64url decoding; `none` on invalid characters or an
impossible remainder length. -/
def decodeB64 : List Char → Option (List Nat)
  | [] => some []
  | [_] => none
  | [c1, c2] => do
    let v1 ← b64Val c1
    let v2 ← b64Val c2
    some [v1 * 4 + v2 / 16]
  | [c1, c2, c3] => do
    let v1 ← b64Val c1
    let v2 ← b64Val c2
    let v3 ← b64Val c3
    some [v1 * 4 + v2 / 16, v2 % 16 * 16 + v3 / 4]
  | c1 :: c2 :: c3 :: c4 :: rest => do
    let v1 ← b64Val c1
    let v2 ← b64Val c2
    let v3 ← b64Val c3
    let v4 ← b64Val c4
    let tl ← decodeB64 rest
    some ((v1 * 4 + v2 / 16) :: (v2 % 16 * 16 + v3 / 4) :: (v3 % 4 * 64 + v4) :: tl)

/-- UTF-8 encoding of one character (`Convert.string(...).toUint8Array()`). -/
def utf8Char (c : Char) : List Nat :=
  let n := c.toNat
  if n < 128 then [n]
  else if n < 2048 then [192 + n / 64, 128 + n % 64]
  else if n < 65536 then [224 + n / 4096, 128 + n / 64 % 64, 128 + n % 64]
  else [240 + n / 262144, 128 + n / 4096 % 64, 128 + n / 64 % 64, 128 + n % 64]

/-- UTF-8 encoding of a character list. -/
def utf8Encode (l : List Char) : List Nat := l.flatMap utf8Char

/-- Continuation of UTF-8 decoding after a 2-byte leading byte. -/
def utf8Cont1 (rec : List Nat → Option (List Char)) (b : Nat) : List Nat → Option (List Char)
  | b2 :: bs2 =>
    if 128 ≤ b2 ∧ b2 < 192 then do
      let tl ← rec bs2
      some (Char.ofNat ((b - 192) * 64 + (b2 - 128)) :: tl)
    else none
  | [] => none

/-- Continuation of UTF-8 decoding after a 3-byte leading byte. -/
def utf8Cont2 (rec : List Nat → Option (List Char)) (b : Nat) : List Nat → Option (List Char)
  | b2 :: b3 :: bs3 =>
    if (128 ≤ b2 ∧ b2 < 192) ∧ (128 ≤ b3 ∧ b3 < 192) then do
      let tl ← rec bs3
      some (Char.ofNat ((b - 224) * 4096 + (b2 - 128) * 64 + (b3 - 128)) :: tl)
    else none
  | _ => none

/-- Continuation of UTF-8 decoding after a 4-byte leading byte. -/
def utf8Cont3 (rec : List Nat → Option (List Char)) (b : Nat) : List Nat → Option (List Char)
  | b2 :: b3 :: b4 :: bs4 =>
    if (128 ≤ b2 ∧ b2 < 192) ∧ (128 ≤ b3 ∧ b3 < 192) ∧ (128 ≤ b4 ∧ b4 < 192) then do
      let tl ← rec bs4
      some (Char.ofNat ((b - 240) * 262144 + (b2 - 128) * 4096 + (b3 - 128) * 64 + (b4 - 128)) :: tl)
    else none
  | _ => none

/-- Fuelled UTF-8 decoding; each step consumes at least one byte and one
unit of fuel, so fuel equal to the byte count always suffices. -/
def utf8DecodeF : Nat → List Nat → Option (List Char)
  | _, [] => some []
  | 0, _ :: _ => none
  | fuel + 1, b :: bs =>
    if b < 128 then do
      let tl ← utf8DecodeF fuel bs
      some (Char.ofNat b :: tl)
    else if b < 192 then none
    else if b < 224 then utf8Cont1 (utf8DecodeF fuel) b bs
    else if b < 240 then utf8Cont2 (utf8DecodeF fuel) b bs
    else utf8Cont3 (utf8DecodeF fuel) b bs

/-- UTF-8 decoding; `none` on a malformed byte sequence. -/
def utf8Decode (l : List Nat) : Option (List Char) := utf8DecodeF l.length l

/-- JSON escaping of one character (the fragment performed by
`JSON.stringify` on string values). -/
def jsonEscChar (c : Char) : List Char :=
  if c = quoteC then [backslashC, quoteC]
  else if c = backslashC then [backslashC, backslashC]
  else if c.toNat < 32 then
    backslashC :: 'u' :: '0' :: '0' ::
      [b64Alphabet.getD (52 + c.toNat / 16) '0', b64Alphabet.getD (52 + c.toNat % 16) '0']
  else [c]

/-- A JSON string literal: quote, escaped body, quote. -/
def jsonQuote (l : List Char) : List Char :=
  quoteC :: l.flatMap jsonEscChar ++ [quoteC]

/-- `JSON.stringify({alg, kid})` with insertion order `alg`, `kid` — the
serialization performed by `Convert.object(jwsHeader).toBase64Url()`. -/
def serializeHeaderC (alg kid : String) : List Char :=
  lbraceC :: (jsonQuote ['a', 'l', 'g'] ++ ':' :: jsonQuote alg.data ++
    ',' :: jsonQuote ['k', 'i', 'd'] ++ ':' :: jsonQuote kid.data) ++ [rbraceC]

/-- Unescape map for the escape sequences this parser understands. -/
def jsonUnescChar (c : Char) : Option Char :=
  if c = quoteC then some quoteC
  else if c = backslashC then some backslashC
  else if c = '/' then some '/'
  else if c = 'n' then some (Char.ofNat 10)
  else if c = 't' then some (Char.ofNat 9)
  else if c = 'r' then some (Char.ofNat 13)
  else none

/-- Parse the body of a JSON string literal after the opening quote;
returns the contents and the remainder after the closing quote. -/
def parseStringBody : List Char → List Char → Option (List Char × List Char)
  | [], _ => none
  | [c], acc => if c = quoteC then some (acc.reverse, []) else none
  | c :: e :: rest, acc =>
    if c = quoteC then some (acc.reverse, e :: rest)
    else if c = backslashC then do
      let u ← jsonUnescChar e
      parseStringBody rest (u :: acc)
    else parseStringBody (e :: rest) (c :: acc)

def isWsC (c : Char) : Bool := c = ' ' ∨ c.toNat = 10 ∨ c.toNat = 9 ∨ c.toNat = 13

def skipWs (l : List Char) : List Char := l.dropWhile isWsC

/-- After a parsed member `"k":"v"`: a `,` continues with further members
(through `pm`, the parser for the remaining members); otherwise the object
must close with `}` followed only by whitespace. -/
def memberTail (pm : List Char → Option (List (String × String)))
    (k v : List Char) : List Char → Option (List (String × String))
  | ',' :: r5 => do
    let ps ← pm r5
    some ((String.mk k, String.mk v) :: ps)
  | c5 :: r6 =>
    if c5 = rbraceC ∧ skipWs r6 = [] then some [(String.mk k, String.mk v)]
    else none
  | [] => none

/-- After `"k":`: the value must be a string literal. -/
def memberValue (pm : List Char → Option (List (String × String)))
    (k : List Char) : List Char → Option (List (String × String))
  | c2 :: r3 =>
    if c2 = quoteC then do
      let p ← parseStringBody r3 []
      memberTail pm k p.1 (skipWs p.2)
    else none
  | [] => none

/-- After a parsed member key: a `:` must follow. -/
def memberColon (pm : List Char → Option (List (String × String)))
    (k : List Char) : List Char → Option (List (String × String))
  | ':' :: r2 => memberValue pm k (skipWs r2)
  | _ => none

/-- A member must start with a string key. -/
def parseMemberStart (pm : List Char → Option (List (String × String))) :
    List Char → Option (List (String × String))
  | c :: rest =>
    if c = quoteC then do
      let p ← parseStringBody rest []
      memberColon pm p.1 (skipWs p.2)
    else none
  | [] => none

/-- Parse the members of a flat JSON object whose values are strings,
starting right after `{` (or after a `,`), requiring the input to end
immediately after the closing `}`. -/
def parseMembers : Nat → List Char → Option (List (String × String))
  | _, [] => none
  | 0, _ :: _ => none
  | fuel + 1, l => parseMemberStart (parseMembers fuel) (skipWs l)

/-- The body of an object: either an immediate `}` ending the input, or a
member list. -/
def parseObjBody (pmem : List Char → Option (List (String × String))) :
    List Char → Option (List (String × String))
  | c2 :: r2 =>
    if c2 = rbraceC ∧ skipWs r2 = [] then some []
    else pmem (c2 :: r2)
  | [] => none

/-- An object must open with `{`. -/
def parseObjOpen (pmem : List Char → Option (List (String × String))) :
    List Char → Option (List (String × String))
  | c :: rest =>
    if c = lbraceC then parseObjBody pmem (skipWs rest)
    else none
  | [] => none

/-- The fragment of `JSON.parse` used on decoded JWS headers: a flat object
with string values (objects with other value shapes are outside the
modelled domain and yield `none`). -/
def parseJsonObjC (l : List Char) : Option (List (String × String)) :=
  parseObjOpen (parseMembers l.length) (skipWs l)

/-! ## Data model of the Crypto class -/

/-- The two signer objects used as registry values (`new EcdsaAlgorithm()`
and `new EdDsaAlgorithm()` from the external crypto library). -/
inductive SignerRef where
  | ecdsaAlgorithm : SignerRef
  | eddsaAlgorithm : SignerRef
deriving DecidableEq

/-- The per-algorithm option records passed to the signer objects. -/
inductive AlgOptions where
  | ecdsaOptions (name : String) (hash : String) : AlgOptions
  | eddsaOptions (name : String) : AlgOptions
deriving DecidableEq

/-- `SignerValue`: a registry entry with a signer, its options and the
canonical `alg` and `crv` labels. -/
structure SignerValue where
  signer : SignerRef
  options : AlgOptions
  alg : String
  crv : String
deriving DecidableEq

def secp256k1Signer : SignerValue :=
  { signer := .ecdsaAlgorithm
    options := .ecdsaOptions "ECDSA" "SHA-256"
    alg := "ES256K"
    crv := "secp256k1" }

def ed25519Signer : SignerValue :=
  { signer := .eddsaAlgorithm
    options := .eddsaOptions "EdDSA"
    alg := "EdDSA"
    crv := "Ed25519" }

/-- A JSON Web Key: the fields the core reads (`alg`, `crv`), the fields the
verify-side monkeypatch writes (`ext`, `key_ops` as `keyOps`), and the
remaining opaque members. -/
structure Jwk where
  kty : Option String := none
  alg : Option String := none
  crv : Option String := none
  ext : Option String := none
  keyOps : Option (List String) := none
  params : List (String × String) := []
deriving DecidableEq

/-- Modelled from the spec: the verification-method record
`{id, type, publicKeyJwk?}` returned by the DID Resolution collaborator
(`deferenceDidUrl` lives in `did-resolver.js`, which is not under `src/`). -/
structure VerificationMethod where
  id : String := ""
  type : String := ""
  publicKeyJwk : Option Jwk := none
deriving DecidableEq

/-- The external cryptographic collaborators: `Jose.jwkToCryptoKey` and the
`sign`/`verify` methods of the two signer objects. `K` is the opaque
CryptoKey type. A thrown exception is `Except.error`. -/
structure Primitives (K : Type) where
  jwkToCryptoKey : Jwk → Except String K
  signFn : SignerRef → AlgOptions → K → List Nat → Except String (List Nat)
  verifyFn : SignerRef → AlgOptions → K → List Nat → List Nat → Except String Bool

/-- A DID-resolution collaborator: `deferenceDidUrl` followed by the
`isVerificationMethod` shape check (`Except.ok none` models a dereference
result that is not a verification method). -/
def Resolver : Type := String → Except String (Option VerificationMethod)

/-- Options passed to `Crypto.sign`. -/
structure SignOptions where
  detached : Bool
  payload : List Nat
  privateKeyJwk : Jwk
  kid : String

/-- Options passed to `Crypto.verify`. -/
structure VerifyOptions where
  detachedPayload : Option (List Nat) := none
  signature : String

/-! ## Error messages thrown by the core -/

def errMissingSignature : String :=
  "Signature verification failed: Expected signature property to exist"

def errMalformedJws : String :=
  "Signature verification failed: Expected valid JWS with detached content"

def errMalformedHeader : String :=
  "Signature verification failed: Expected JWS header to contain alg and kid"

def errNotVerificationMethod : String :=
  "Signature verification failed: Expected kid in JWS header to dereference to a DID Document Verification Method"

def errNoPublicKeyJwk : String :=
  "Signature verification failed: Expected kid in JWS header to dereference to a DID Document Verification Method with publicKeyJwk"

def errIntegrityMismatch : String :=
  "Signature verification failed: Integrity mismatch"

/-- The `UnsupportedAlgorithm` error thrown by `Crypto.sign`. -/
def errUnsupported (algorithmId : String) : String := algorithmId ++ " not supported"

/-- Modelled library failure: `Convert.base64Url(...).toObject()` throwing on
bytes that are not base64url, not UTF-8 or not JSON. -/
def errHeaderToObject : String := "Convert: unable to decode JWS header"

/-- Modelled library failure: `Convert.base64Url(...).toUint8Array()`
throwing on a non-base64url signature segment. -/
def errBase64Decode : String := "Convert: unable to decode base64url"

/-- Modelled JavaScript runtime failure: destructuring
`Crypto.algorithms[algorithmId]` when the registry has no such key
(`const { signer, options } = undefined` throws a TypeError). -/
def errDestructureSigner : String :=
  "TypeError: Cannot destructure property signer of undefined"

/-! ## The Crypto class -/

namespace Crypto

/-- Supported cryptographic algorithms; keys are `alg:crv`
(JavaScript object literal, modelled as an association list). -/
def algorithms : List (String × SignerValue) :=
  [("ES256K:", secp256k1Signer),
   ("ES256K:secp256k1", secp256k1Signer),
   (":secp256k1", secp256k1Signer),
   ("EdDSA:Ed25519", ed25519Signer)]

end Crypto

/-- `${publicKeyJwk['crv']}` inside a template literal: an absent property
prints as the string `undefined`. -/
def crvStr (pk : Jwk) : String :=
  match pk.crv with
  | some c => c
  | none => "undefined"

/-- The verify-side monkeypatch: spread the public key and force
`ext: 'true'`, `key_ops: ['verify']`. -/
def monkeyPatch (pk : Jwk) : Jwk :=
  { pk with ext := some "true", keyOps := some ["verify"] }

/-- `Convert.base64Url(headerSegment).toObject()`: base64url decode, UTF-8
decode, JSON parse. -/
def decodeJwsHeader (hSeg : List Char) : Option (List (String × String)) := do
  let bytes ← decodeB64 hSeg
  let chars ← utf8Decode bytes
  parseJsonObjC chars

/-- JavaScript falsiness of `jwsHeader.alg` and `jwsHeader.kid`: the
property is absent or the empty string. -/
def falsyO : Option String → Bool
  | none => true
  | some s => s = ""

/-- `kid.split('#')[0]`. -/
def didOf (kid : String) : String := String.mk (headSeg '#' kid.data)

namespace Crypto

/-! `Crypto.digest` is defined further below, after the JSON value type. -/

/-- `Crypto.sign` (lines 146-176 of the source): registry lookup keyed by the
private key's own `alg`/`crv` (missing fields default to the empty string),
JWS header construction, base64url encodings, key conversion, signing, and
assembly of the attached or detached compact JWS. -/
def sign {K : Type} (prims : Primitives K) (opts : SignOptions) : Except String String :=
  let algorithmName := opts.privateKeyJwk.alg.getD ""
  let namedCurve := opts.privateKeyJwk.crv.getD ""
  let algorithmId := algorithmName ++ ":" ++ namedCurve
  match Crypto.algorithms.lookup algorithmId with
  | none => .error (errUnsupported algorithmId)
  | some algorithm =>
    let hEnc := encodeB64 (utf8Encode (serializeHeaderC algorithm.alg opts.kid))
    let pEnc := encodeB64 opts.payload
    match prims.jwkToCryptoKey opts.privateKeyJwk with
    | .error e => .error e
    | .ok key =>
      let toSignBytes := utf8Encode (hEnc ++ '.' :: pEnc)
      match prims.signFn algorithm.signer algorithm.options key toSignBytes with
      | .error e => .error e
      | .ok signatureBytes =>
        let sEnc := encodeB64 signatureBytes
        if opts.detached then .ok (String.mk (hEnc ++ '.' :: '.' :: sEnc))
        else .ok (String.mk (hEnc ++ '.' :: pEnc ++ '.' :: sEnc))

/-- Lines 206-245 of `Crypto.verify`: everything after the segment split and
the detached-payload substitution, taking the header segment, the effective
payload segment and the signature segment. -/
def verifyCore {K : Type} (prims : Primitives K) (resolver : Resolver)
    (hSeg pEnc sSeg : List Char) : Except String String :=
  match decodeJwsHeader hSeg with
  | none => .error errHeaderToObject
  | some jwsHeader =>
    let algO := jwsHeader.lookup "alg"
    let kidO := jwsHeader.lookup "kid"
    if falsyO algO || falsyO kidO then .error errMalformedHeader
    else
      let kid := kidO.getD ""
      match resolver kid with
      | .error e => .error e
      | .ok none => .error errNotVerificationMethod
      | .ok (some verificationMethod) =>
        match verificationMethod.publicKeyJwk with
        | none => .error errNoPublicKeyJwk
        | some publicKeyJwk =>
          let signedDataBytes := utf8Encode (hSeg ++ '.' :: pEnc)
          match decodeB64 sSeg with
          | none => .error errBase64Decode
          | some signatureBytes =>
            let algorithmId := algO.getD "" ++ ":" ++ crvStr publicKeyJwk
            match Crypto.algorithms.lookup algorithmId with
            | none => .error errDestructureSigner
            | some algorithm =>
              match prims.jwkToCryptoKey (monkeyPatch publicKeyJwk) with
              | .error e => .error e
              | .ok key =>
                match prims.verifyFn algorithm.signer algorithm.options key
                    signedDataBytes signatureBytes with
                | .error e => .error e
                | .ok isLegit =>
                  if !isLegit then .error errIntegrityMismatch
                  else .ok (didOf kid)

/-- `Crypto.verify` (lines 185-246 of the source): reject an empty signature,
split on `.` into exactly three segments, substitute a supplied detached
payload for an empty payload segment, then run the core pipeline. -/
def verify {K : Type} (prims : Primitives K) (resolver : Resolver)
    (opts : VerifyOptions) : Except String String :=
  if opts.signature = "" then .error errMissingSignature
  else
    match splitC '.' opts.signature.data with
    | [hSeg, pSeg, sSeg] =>
      match opts.detachedPayload with
      | some detachedPayload =>
        if pSeg.length ≠ 0 then .error errMalformedJws
        else verifyCore prims resolver hSeg (encodeB64 detachedPayload) sSeg
      | none => verifyCore prims resolver hSeg pSeg sSeg
    | _ => .error errMalformedJws

end Crypto

/-! ## JSON values, RFC 8785 canonicalization and SHA-256 (Crypto.digest) -/

/-- A JSON-like value (`digest` payloads). Numbers are restricted to
integers, whose RFC 8785 serialization is plain decimal. -/
inductive Jsonv where
  | null : Jsonv
  | bool (b : Bool) : Jsonv
  | num (i : Int) : Jsonv
  | str (s : String) : Jsonv
  | arr (xs : List Jsonv) : Jsonv
  | obj (ps : List (String × Jsonv)) : Jsonv

/-- Decimal digits of an integer. -/
def intChars (i : Int) : List Char :=
  match i with
  | .ofNat n => Nat.toDigits 10 n
  | .negSucc n => '-' :: Nat.toDigits 10 (n + 1)

/-- Comma-join a list of serialized items. -/
def joinComma : List (List Char) → List Char
  | [] => []
  | [x] => x
  | x :: xs => x ++ ',' :: joinComma xs

/-- Ordering of object members by key, as performed by the `canonicalize`
library (RFC 8785 sorted keys). -/
def keyLe (p q : String × List Char) : Prop := p.1 ≤ q.1

instance : DecidableRel keyLe := fun p q => inferInstanceAs (Decidable (p.1 ≤ q.1))

def sortPairs (l : List (String × List Char)) : List (String × List Char) :=
  List.insertionSort keyLe l

mutual

/-- RFC 8785 canonical JSON serialization (the `canonicalize` library):
no whitespace, object keys sorted. -/
def canon : Jsonv → List Char
  | .null => "null".data
  | .bool true => "true".data
  | .bool false => "false".data
  | .num i => intChars i
  | .str s => jsonQuote s.data
  | .arr xs => '[' :: joinComma (canonList xs) ++ [']']
  | .obj ps =>
    lbraceC ::
      joinComma ((sortPairs (canonPairs ps)).map fun p => jsonQuote p.1.data ++ ':' :: p.2) ++
      [rbraceC]

def canonList : List Jsonv → List (List Char)
  | [] => []
  | x :: xs => canon x :: canonList xs

def canonPairs : List (String × Jsonv) → List (String × List Char)
  | [] => []
  | (k, v) :: ps => (k, canon v) :: canonPairs ps

end

/-! SHA-256 (the `sha256` function of the hashing library), over byte
lists, with 32-bit words as `Nat` reduced modulo `2 ^ 32`. -/

def w32 : Nat := 4294967296

def rotr32 (n x : Nat) : Nat := ((x >>> n) ||| (x <<< (32 - n))) % w32

def bsig0 (x : Nat) : Nat := rotr32 2 x ^^^ rotr32 13 x ^^^ rotr32 22 x

def bsig1 (x : Nat) : Nat := rotr32 6 x ^^^ rotr32 11 x ^^^ rotr32 25 x

def ssig0 (x : Nat) : Nat := rotr32 7 x ^^^ rotr32 18 x ^^^ (x >>> 3)

def ssig1 (x : Nat) : Nat := rotr32 17 x ^^^ rotr32 19 x ^^^ (x >>> 10)

def chF (x y z : Nat) : Nat := (x &&& y) ^^^ ((x ^^^ (w32 - 1)) &&& z)

def majF (x y z : Nat) : Nat := (x &&& y) ^^^ (x &&& z) ^^^ (y &&& z)

def sha256K : List Nat :=
  [1116352408, 1899447441, 3049323471, 3921009573, 961987163, 1508970993,
   2453635748, 2870763221, 3624381080, 310598401, 607225278, 1426881987,
   1925078388, 2162078206, 2614888103, 3248222580, 3835390401, 4022224774,
   264347078, 604807628, 770255983, 1249150122, 1555081692, 1996064986,
   2554220882, 2821834349, 2952996808, 3210313671, 3336571891, 3584528711,
   113926993, 338241895, 666307205, 773529912, 1294757372, 1396182291,
   1695183700, 1986661051, 2177026350, 2456956037, 2730485921, 2820302411,
   3259730800, 3345764771, 3516065817, 3600352804, 4094571909, 275423344,
   430227734, 506948616, 659060556, 883997877, 958139571, 1322822218,
   1537002063, 1747873779, 1955562222, 2024104815, 2227730452, 2361852424,
   2428436474, 2756734187, 3204031479, 3329325298]

structure Sha256State where
  a : Nat
  b : Nat
  c : Nat
  d : Nat
  e : Nat
  f : Nat
  g : Nat
  h : Nat

def sha256Init : Sha256State :=
  ⟨1779033703, 3144134277, 1013904242, 2773480762,
   1359893119, 2600822924, 528734635, 1541459225⟩

/-- Big-endian bytes of a 32-bit word. -/
def toBytes4 (x : Nat) : List Nat :=
  [x / 16777216 % 256, x / 65536 % 256, x / 256 % 256, x % 256]

/-- Big-endian bytes of a 64-bit length field. -/
def toBytes8 (x : Nat) : List Nat :=
  [x / 72057594037927936 % 256, x / 281474976710656 % 256,
   x / 1099511627776 % 256, x / 4294967296 % 256] ++ toBytes4 (x % w32)

/-- SHA-256 padding: `0x80`, zeros to 56 mod 64, 8-byte bit length. -/
def sha256Pad (msg : List Nat) : List Nat :=
  msg ++ 128 :: List.replicate ((119 - msg.length % 64) % 64) 0 ++
    toBytes8 (msg.length * 8 % 18446744073709551616)

def chunk64 : List Nat → List (List Nat)
  | [] => []
  | b :: bs => (b :: bs).take 64 :: chunk64 ((b :: bs).drop 64)
termination_by l => l.length
decreasing_by simp; omega

/-- Big-endian 32-bit words of a 64-byte block. -/
def toWords : List Nat → List Nat
  | b1 :: b2 :: b3 :: b4 :: rest =>
    (b1 * 16777216 + b2 * 65536 + b3 * 256 + b4) :: toWords rest
  | _ => []

/-- Message-schedule extension, on a reversed word list (head = newest). -/
def extendWords : Nat → List Nat → List Nat
  | 0, w => w
  | n + 1, w =>
    extendWords n
      ((ssig1 (w.getD 1 0) + w.getD 6 0 + ssig0 (w.getD 14 0) + w.getD 15 0) % w32 :: w)

def messageSchedule (block : List Nat) : List Nat :=
  (extendWords 48 (toWords block).reverse).reverse

def compressStep (s : Sha256State) (kw : Nat × Nat) : Sha256State :=
  let t1 := (s.h + bsig1 s.e + chF s.e s.f s.g + kw.1 + kw.2) % w32
  let t2 := (bsig0 s.a + majF s.a s.b s.c) % w32
  ⟨(t1 + t2) % w32, s.a, s.b, s.c, (s.d + t1) % w32, s.e, s.f, s.g⟩

def addState (s t : Sha256State) : Sha256State :=
  ⟨(s.a + t.a) % w32, (s.b + t.b) % w32, (s.c + t.c) % w32, (s.d + t.d) % w32,
   (s.e + t.e) % w32, (s.f + t.f) % w32, (s.g + t.g) % w32, (s.h + t.h) % w32⟩

def processBlock (s : Sha256State) (block : List Nat) : Sha256State :=
  addState s (List.foldl compressStep s (sha256K.zip (messageSchedule block)))

def sha256StateBytes (s : Sha256State) : List Nat :=
  toBytes4 s.a ++ toBytes4 s.b ++ toBytes4 s.c ++ toBytes4 s.d ++
    toBytes4 s.e ++ toBytes4 s.f ++ toBytes4 s.g ++ toBytes4 s.h

/-- SHA-256 of a byte list. -/
def sha256 (msg : List Nat) : List Nat :=
  sha256StateBytes (List.foldl processBlock sha256Init (chunk64 (sha256Pad msg)))

/-- `Crypto.digest` (lines 131-137 of the source): canonicalize the payload
per RFC 8785, UTF-8 encode, and hash with SHA-256. -/
def Crypto.digest (payload : Jsonv) : List Nat :=
  sha256 (utf8Encode (canon payload))

/-! ## Structural equality of JSON values up to object key order -/

mutual

/-- Structural equality of JSON-like values regardless of object field
order: objects are compared up to a permutation of their member lists,
recursively. -/
inductive StructEq : Jsonv → Jsonv → Prop where
  | null : StructEq .null .null
  | bool (b : Bool) : StructEq (.bool b) (.bool b)
  | num (i : Int) : StructEq (.num i) (.num i)
  | str (s : String) : StructEq (.str s) (.str s)
  | arr {xs ys : List Jsonv} : StructEqList xs ys → StructEq (.arr xs) (.arr ys)
  | obj {ps qs' qs : List (String × Jsonv)} :
      ps.Perm qs' → StructEqPairs qs' qs → StructEq (.obj ps) (.obj qs)

inductive StructEqList : List Jsonv → List Jsonv → Prop where
  | nil : StructEqList [] []
  | cons {x y : Jsonv} {xs ys : List Jsonv} :
      StructEq x y → StructEqList xs ys → StructEqList (x :: xs) (y :: ys)

inductive StructEqPairs : List (String × Jsonv) → List (String × Jsonv) → Prop where
  | nil : StructEqPairs [] []
  | cons (k : String) {v w : Jsonv} {ps qs : List (String × Jsonv)} :
      StructEq v w → StructEqPairs ps qs → StructEqPairs ((k, v) :: ps) ((k, w) :: qs)

end

def nodupKeysB : List String → Bool
  | [] => true
  | k :: ks => (!ks.contains k) && nodupKeysB ks

mutual

/-- Every object anywhere inside the value has pairwise distinct keys
(guaranteed for values that come from JavaScript objects). -/
def nodupDeep : Jsonv → Bool
  | .null => true
  | .bool _ => true
  | .num _ => true
  | .str _ => true
  | .arr xs => nodupDeepList xs
  | .obj ps => nodupKeysB (ps.map Prod.fst) && nodupDeepPairs ps

def nodupDeepList : List Jsonv → Bool
  | [] => true
  | x :: xs => nodupDeep x && nodupDeepList xs

def nodupDeepPairs : List (String × Jsonv) → Bool
  | [] => true
  | (_, v) :: ps => nodupDeep v && nodupDeepPairs ps

end

/-! ## Remaining small definitions used by the statements -/

deriving instance DecidableEq for Except

/-- A character that JSON serialization leaves untouched and that UTF-8
encodes as itself: printable ASCII other than quote and backslash. -/
def plainChar (c : Char) : Bool :=
  decide (31 < c.toNat) && decide (c.toNat < 128) && !(c = quoteC) && !(c = backslashC)

def plainStr (s : String) : Bool := s.data.all plainChar

/-- The encoded JWS header segment produced by `Crypto.sign` for a given
algorithm label and kid. -/
def jwsHeaderEnc (alg kid : String) : List Char :=
  encodeB64 (utf8Encode (serializeHeaderC alg kid))

/-- `.` does not occur in a list of characters. -/
def dotFree (l : List Char) : Prop := '.' ∉ l

/-- A resolver that dereferences exactly one DID URL. -/
def mkResolver (kid : String) (vm : VerificationMethod) : Resolver :=
  fun s => if s = kid then .ok (some vm) else .ok none

/-- Concrete primitives whose verifier accepts exactly one signature byte
list, ignoring the data. -/
def sigOnlyPrims (sigB : List Nat) : Primitives Unit :=
  { jwkToCryptoKey := fun _ => .ok ()
    signFn := fun _ _ _ _ => .ok sigB
    verifyFn := fun _ _ _ _ s => .ok (s == sigB) }

/-- Concrete primitives whose verifier accepts exactly one (data, signature)
pair. -/
def eqPrims (data sigB : List Nat) : Primitives Unit :=
  { jwkToCryptoKey := fun _ => .ok ()
    signFn := fun _ _ _ _ => .ok sigB
    verifyFn := fun _ _ _ d s => .ok (d == data && s == sigB) }

/-- A verification method carrying an Ed25519 public key. -/
def vmEd : VerificationMethod := { publicKeyJwk := some { crv := some "Ed25519" } }

/-- A verification method carrying a secp256k1 public key. -/
def vmSecp : VerificationMethod := { publicKeyJwk := some { crv := some "secp256k1" } }

/-- An Ed25519 private key in JWK form. -/
def jwkEd : Jwk := { alg := some "EdDSA", crv := some "Ed25519" }

/-- A resolver that dereferences every DID URL to the Ed25519 method. -/
def resolverAny : Resolver := fun _ => .ok (some vmEd)

/-- A serialized JSON header carrying only an `alg` member. -/
def hdrAlgOnly : List Char :=
  lbraceC :: (jsonQuote ['a', 'l', 'g'] ++ ':' :: jsonQuote ['E', 'd', 'D', 'S', 'A']) ++ [rbraceC]

/-- Flip the given bits of the character at position `i`. -/
def bitFlipAt (l : List Char) (i bit : Nat) : List Char :=
  l.mapIdx fun j c => if j = i then Char.ofNat (c.toNat ^^^ bit) else c

instance : IsTotal (String × List Char) keyLe :=
  ⟨fun p q => le_total p.1 q.1⟩

instance : IsTrans (String × List Char) keyLe :=
  ⟨fun _ _ _ hab hbc => le_trans hab hbc⟩

/-! # Theorems -/

/-! ## Splitting -/

theorem splitC_ne_nil {sep : Char} : ∀ l : List Char, splitC sep l ≠ []
  | [] => by simp [splitC]
  | c :: cs => by
    by_cases hc : c = sep
    · simp [splitC, hc]
    · simp only [splitC, if_neg hc]
      match hcs : splitC sep cs with
      | [] => simp
      | g :: gs => simp

theorem splitC_sepFree {sep : Char} : ∀ {l : List Char}, sep ∉ l → splitC sep l = [l]
  | [], _ => rfl
  | c :: cs, h => by
    have hc : ¬ c = sep := fun hcc => h (hcc ▸ List.mem_cons_self c cs)
    have ih := splitC_sepFree (l := cs) (fun hm => h (List.mem_cons_of_mem c hm))
    simp only [splitC, if_neg hc, ih]

theorem splitC_append {sep : Char} :
    ∀ {a : List Char} (rest : List Char), sep ∉ a →
      splitC sep (a ++ sep :: rest) = a :: splitC sep rest
  | [], rest, _ => by simp [splitC]
  | c :: a', rest, h => by
    have hc : ¬ c = sep := fun hcc => h (hcc ▸ List.mem_cons_self c a')
    have ih := splitC_append (a := a') rest (fun hm => h (List.mem_cons_of_mem c hm))
    simp only [List.cons_append, splitC, if_neg hc, List.append_eq, ih]

theorem splitC_three {h p s : List Char} (hh : '.' ∉ h) (hp : '.' ∉ p) (hs : '.' ∉ s) :
    splitC '.' (h ++ '.' :: p ++ '.' :: s) = [h, p, s] := by
  rw [show h ++ '.' :: p ++ '.' :: s = h ++ '.' :: (p ++ '.' :: s) by simp]
  rw [splitC_append _ hh, splitC_append _ hp, splitC_sepFree hs]

theorem headSeg_cons_ne {sep c : Char} {cs : List Char} (hc : ¬ c = sep) :
    headSeg sep (c :: cs) = c :: headSeg sep cs := by
  simp only [headSeg, splitC, if_neg hc]
  match hcs : splitC sep cs with
  | [] => exact absurd hcs (splitC_ne_nil cs)
  | g :: gs => simp

theorem headSeg_eq_takeWhile {sep : Char} :
    ∀ l : List Char, headSeg sep l = l.takeWhile (fun c => !(c = sep))
  | [] => rfl
  | c :: cs => by
    by_cases hc : c = sep
    · subst hc; simp [headSeg, splitC, List.takeWhile_cons]
    · have ih := @headSeg_eq_takeWhile sep cs
      rw [headSeg_cons_ne hc, ih]
      simp [List.takeWhile_cons, hc]

theorem headSeg_sepFree {sep : Char} {l : List Char} (h : sep ∉ l) : headSeg sep l = l := by
  simp [headSeg, splitC_sepFree h]

/-! ## Base64url -/

theorem b64Char_ne_dot (n : Nat) : b64Char n ≠ '.' := by
  unfold b64Char
  by_cases h : n < b64Alphabet.length
  · rw [List.getD_eq_getElem _ _ h]
    have hm := List.getElem_mem h (l := b64Alphabet)
    revert hm; generalize b64Alphabet[n] = c; revert c; decide
  · rw [List.getD_eq_default _ _ (by omega)]; decide

theorem dotFree_encodeB64 : ∀ l : List Nat, '.' ∉ encodeB64 l
  | [] => by simp [encodeB64]
  | [a] => by
    simp only [encodeB64, List.mem_cons, List.not_mem_nil, or_false, not_or]
    exact ⟨(b64Char_ne_dot _).symm, (b64Char_ne_dot _).symm⟩
  | [a, b] => by
    simp only [encodeB64, List.mem_cons, List.not_mem_nil, or_false, not_or]
    exact ⟨(b64Char_ne_dot _).symm, (b64Char_ne_dot _).symm, (b64Char_ne_dot _).symm⟩
  | a :: b :: c :: rest => by
    have ih := dotFree_encodeB64 rest
    simp only [encodeB64, List.mem_cons, not_or]
    refine ⟨(b64Char_ne_dot _).symm, (b64Char_ne_dot _).symm, (b64Char_ne_dot _).symm,
      (b64Char_ne_dot _).symm, ih⟩

theorem b64Val_b64Char : ∀ n < 64, b64Val (b64Char n) = some n := by decide

theorem decodeB64_encodeB64 :
    ∀ l : List Nat, (∀ b ∈ l, b < 256) → decodeB64 (encodeB64 l) = some l
  | [], _ => rfl
  | [a], h => by
    have ha : a < 256 := h a (by simp)
    simp only [encodeB64, decodeB64]
    rw [b64Val_b64Char _ (by omega), b64Val_b64Char _ (by omega)]
    simp only [bind, Option.bind, Option.some.injEq, List.cons.injEq, and_true]
    omega
  | [a, b], h => by
    have ha : a < 256 := h a (by simp)
    have hb : b < 256 := h b (by simp)
    simp only [encodeB64, decodeB64]
    rw [b64Val_b64Char _ (by omega), b64Val_b64Char _ (by omega),
      b64Val_b64Char _ (by omega)]
    simp only [bind, Option.bind, Option.some.injEq, List.cons.injEq, and_true]
    constructor <;> omega
  | a :: b :: c :: rest, h => by
    have ha : a < 256 := h a (by simp)
    have hb : b < 256 := h b (by simp)
    have hc : c < 256 := h c (by simp)
    have ih := decodeB64_encodeB64 rest (fun x hx => h x (by simp [hx]))
    simp only [encodeB64, decodeB64]
    rw [b64Val_b64Char _ (by omega), b64Val_b64Char _ (by omega),
      b64Val_b64Char _ (by omega), b64Val_b64Char _ (by omega), ih]
    simp only [bind, Option.bind, Option.some.injEq, List.cons.injEq, and_true]
    refine ⟨by omega, by omega, by omega⟩

/-! ## UTF-8 -/

theorem char_toNat_lt (c : Char) : c.toNat < 1114112 := by
  rcases c.valid with h | ⟨_, h⟩
  · exact Nat.lt_trans h (by norm_num)
  · exact h

theorem utf8Char_lt_256 (c : Char) : ∀ b ∈ utf8Char c, b < 256 := by
  have := char_toNat_lt c
  simp only [utf8Char]
  split_ifs with h1 h2 h3 <;> intro b hb <;> simp at hb <;> omega

theorem utf8Encode_lt_256 (l : List Char) : ∀ b ∈ utf8Encode l, b < 256 := by
  intro b hb
  simp only [utf8Encode, List.mem_flatMap] at hb
  obtain ⟨c, _, hbc⟩ := hb
  exact utf8Char_lt_256 c b hbc

theorem utf8Char_ascii {c : Char} (hc : c.toNat < 128) : utf8Char c = [c.toNat] := by
  simp only [utf8Char]
  rw [if_pos hc]

theorem utf8Decode_encode_ascii :
    ∀ {l : List Char}, (∀ c ∈ l, c.toNat < 128) → utf8Decode (utf8Encode l) = some l
  | [], _ => rfl
  | c :: cs, h => by
    have hc : c.toNat < 128 := h c (by simp)
    have ih := utf8Decode_encode_ascii (l := cs) (fun x hx => h x (by simp [hx]))
    simp only [utf8Decode, utf8Encode, List.flatMap_cons] at ih ⊢
    rw [utf8Char_ascii hc, List.cons_append, List.nil_append, List.length_cons]
    rw [utf8DecodeF, if_pos hc, ih]
    simp only [bind, Option.bind, Option.some.injEq, List.cons.injEq, and_true]
    exact Char.ofNat_toNat c

/-! ## JSON serialization round trip -/

theorem plainChar_spec {c : Char} (h : plainChar c = true) :
    31 < c.toNat ∧ c.toNat < 128 ∧ c ≠ quoteC ∧ c ≠ backslashC := by
  simp only [plainChar, Bool.and_eq_true, decide_eq_true_eq, Bool.not_eq_true',
    decide_eq_false_iff_not] at h
  exact ⟨h.1.1.1, h.1.1.2, h.1.2, h.2⟩

theorem skipWs_quote {r : List Char} : skipWs (quoteC :: r) = quoteC :: r := by
  simp only [skipWs, List.dropWhile_cons]
  rw [show isWsC quoteC = false from by decide]
  simp

theorem skipWs_colon {r : List Char} : skipWs (':' :: r) = ':' :: r := by
  simp only [skipWs, List.dropWhile_cons]
  rw [show isWsC ':' = false from by decide]
  simp

theorem skipWs_comma {r : List Char} : skipWs (',' :: r) = ',' :: r := by
  simp only [skipWs, List.dropWhile_cons]
  rw [show isWsC ',' = false from by decide]
  simp

theorem skipWs_rbrace {r : List Char} : skipWs (rbraceC :: r) = rbraceC :: r := by
  simp only [skipWs, List.dropWhile_cons]
  rw [show isWsC rbraceC = false from by decide]
  simp

theorem skipWs_lbrace {r : List Char} : skipWs (lbraceC :: r) = lbraceC :: r := by
  simp only [skipWs, List.dropWhile_cons]
  rw [show isWsC lbraceC = false from by decide]
  simp

theorem jsonEscChar_plain {c : Char} (h : plainChar c = true) : jsonEscChar c = [c] := by
  obtain ⟨h1, _, hq, hb⟩ := plainChar_spec h
  simp only [jsonEscChar, if_neg hq, if_neg hb]
  rw [if_neg (by omega)]

theorem escape_plain : ∀ {l : List Char}, l.all plainChar = true → l.flatMap jsonEscChar = l
  | [], _ => rfl
  | c :: cs, h => by
    simp only [List.all_cons, Bool.and_eq_true] at h
    simp only [List.flatMap_cons, jsonEscChar_plain h.1, escape_plain h.2,
      List.cons_append, List.nil_append]

theorem jsonQuote_plain {s : List Char} (h : s.all plainChar = true) :
    jsonQuote s = quoteC :: (s ++ [quoteC]) := by
  simp [jsonQuote, escape_plain h]

theorem parseStringBody_plain :
    ∀ {l : List Char}, l.all plainChar = true →
      ∀ (acc rest : List Char),
        parseStringBody (l ++ quoteC :: rest) acc = some (acc.reverse ++ l, rest)
  | [], _, acc, rest => by
    cases rest with
    | nil => simp [parseStringBody]
    | cons e r => simp [parseStringBody]
  | c :: cs, h, acc, rest => by
    simp only [List.all_cons, Bool.and_eq_true] at h
    obtain ⟨_, _, hq, hb⟩ := plainChar_spec h.1
    have ih := parseStringBody_plain (l := cs) h.2 (c :: acc) rest
    cases cs with
    | nil =>
      cases rest with
      | nil =>
        simp only [List.nil_append, List.cons_append, List.append_eq, parseStringBody, if_neg hq, if_neg hb] at ih ⊢
        simp only [ih]; simp
      | cons e r =>
        simp only [List.nil_append, List.cons_append, List.append_eq, parseStringBody, if_neg hq, if_neg hb] at ih ⊢
        simp only [ih]; simp
    | cons c2 cs2 =>
      simp only [List.cons_append, List.append_eq, parseStringBody, if_neg hq, if_neg hb] at ih ⊢
      rw [ih]; simp

theorem parseMembers_last (fuel : Nat) {kd vd : List Char}
    (hk : kd.all plainChar = true) (hv : vd.all plainChar = true) :
    parseMembers (fuel + 1) (jsonQuote kd ++ ':' :: jsonQuote vd ++ [rbraceC]) =
      some [(String.mk kd, String.mk vd)] := by
  rw [jsonQuote_plain hk, jsonQuote_plain hv]
  rw [show (quoteC :: (kd ++ [quoteC])) ++ ':' :: (quoteC :: (vd ++ [quoteC])) ++ [rbraceC] =
    quoteC :: (kd ++ quoteC :: ':' :: quoteC :: (vd ++ quoteC :: [rbraceC])) by simp]
  rw [parseMembers, skipWs_quote, parseMemberStart, if_pos rfl, parseStringBody_plain hk]
  simp only [bind, Option.bind, List.nil_append]
  rw [skipWs_colon, memberColon, skipWs_quote, memberValue, if_pos rfl,
    parseStringBody_plain hv]
  simp only [bind, Option.bind, List.nil_append]
  rw [skipWs_rbrace, memberTail]
  · rw [if_pos ⟨rfl, by simp [skipWs]⟩]
    simp
  · decide
  · simp

theorem parseMembers_cons (fuel : Nat) {kd vd tail : List Char}
    (hk : kd.all plainChar = true) (hv : vd.all plainChar = true) :
    parseMembers (fuel + 1) (jsonQuote kd ++ ':' :: jsonQuote vd ++ ',' :: tail) =
      (parseMembers fuel tail).bind fun ps => some ((String.mk kd, String.mk vd) :: ps) := by
  rw [jsonQuote_plain hk, jsonQuote_plain hv]
  rw [show (quoteC :: (kd ++ [quoteC])) ++ ':' :: (quoteC :: (vd ++ [quoteC])) ++ ',' :: tail =
    quoteC :: (kd ++ quoteC :: ':' :: quoteC :: (vd ++ quoteC :: ',' :: tail)) by simp]
  rw [parseMembers, skipWs_quote, parseMemberStart, if_pos rfl, parseStringBody_plain hk]
  simp only [bind, Option.bind, List.nil_append]
  rw [skipWs_colon, memberColon, skipWs_quote, memberValue, if_pos rfl,
    parseStringBody_plain hv]
  simp only [bind, Option.bind, List.nil_append]
  rw [skipWs_comma, memberTail]
  · cases parseMembers fuel tail <;> simp [bind, Option.bind]
  · simp

theorem jsonQuote_ascii {s : List Char} (h : s.all plainChar = true) :
    ∀ c ∈ jsonQuote s, c.toNat < 128 := by
  rw [jsonQuote_plain h]
  intro c hc
  rcases List.mem_cons.mp hc with rfl | hc
  · decide
  rcases List.mem_append.mp hc with hc | hc
  · exact (plainChar_spec (List.all_eq_true.mp h c hc)).2.1
  · rcases List.mem_singleton.mp hc with rfl
    decide

theorem serializeHeaderC_ascii {alg kid : String}
    (ha : plainStr alg = true) (hk : plainStr kid = true) :
    ∀ c ∈ serializeHeaderC alg kid, c.toNat < 128 := by
  intro c hc
  rw [serializeHeaderC] at hc
  simp only [List.append_assoc, List.cons_append] at hc
  rcases List.mem_cons.mp hc with rfl | hc
  · decide
  rcases List.mem_append.mp hc with hc | hc
  · exact jsonQuote_ascii (by decide) c hc
  rcases List.mem_cons.mp hc with rfl | hc
  · decide
  rcases List.mem_append.mp hc with hc | hc
  · exact jsonQuote_ascii ha c hc
  rcases List.mem_cons.mp hc with rfl | hc
  · decide
  rcases List.mem_append.mp hc with hc | hc
  · exact jsonQuote_ascii (by decide) c hc
  rcases List.mem_cons.mp hc with rfl | hc
  · decide
  rcases List.mem_append.mp hc with hc | hc
  · exact jsonQuote_ascii hk c hc
  · rcases List.mem_singleton.mp hc with rfl
    decide

theorem parseJsonObjC_serializeHeader {alg kid : String}
    (ha : plainStr alg = true) (hk : plainStr kid = true) :
    parseJsonObjC (serializeHeaderC alg kid) = some [("alg", alg), ("kid", kid)] := by
  have hmk1 : String.mk ['a', 'l', 'g'] = "alg" := by decide
  have hmk2 : String.mk ['k', 'i', 'd'] = "kid" := by decide
  have hmk3 : String.mk alg.data = alg := rfl
  have hmk4 : String.mk kid.data = kid := rfl
  have hlen : (serializeHeaderC alg kid).length =
      (jsonQuote ['a', 'l', 'g'] ++ ':' :: jsonQuote alg.data ++
        ',' :: jsonQuote ['k', 'i', 'd'] ++ ':' :: jsonQuote kid.data).length + 2 := by
    simp [serializeHeaderC]
    omega
  rw [parseJsonObjC, hlen]
  rw [show serializeHeaderC alg kid =
    lbraceC :: ((jsonQuote ['a', 'l', 'g'] ++ ':' :: jsonQuote alg.data ++
      ',' :: jsonQuote ['k', 'i', 'd'] ++ ':' :: jsonQuote kid.data) ++ [rbraceC]) by
    simp [serializeHeaderC]]
  rw [skipWs_lbrace, parseObjOpen, if_pos rfl]
  rw [show (jsonQuote ['a', 'l', 'g'] ++ ':' :: jsonQuote alg.data ++
      ',' :: jsonQuote ['k', 'i', 'd'] ++ ':' :: jsonQuote kid.data) ++ [rbraceC] =
    quoteC :: ((['a', 'l', 'g'].flatMap jsonEscChar ++ [quoteC]) ++ ':' :: jsonQuote alg.data ++
      ',' :: jsonQuote ['k', 'i', 'd'] ++ ':' :: jsonQuote kid.data ++ [rbraceC]) by
    simp [jsonQuote]]
  rw [skipWs_quote, parseObjBody]
  rw [if_neg (by intro hcon; exact absurd hcon.1 (by decide))]
  rw [show quoteC :: ((['a', 'l', 'g'].flatMap jsonEscChar ++ [quoteC]) ++ ':' :: jsonQuote alg.data ++
      ',' :: jsonQuote ['k', 'i', 'd'] ++ ':' :: jsonQuote kid.data ++ [rbraceC]) =
    jsonQuote ['a', 'l', 'g'] ++ ':' :: jsonQuote alg.data ++
      ',' :: (jsonQuote ['k', 'i', 'd'] ++ ':' :: jsonQuote kid.data ++ [rbraceC]) by
    simp [jsonQuote]]
  rw [parseMembers_cons _ (by decide) ha]
  rw [parseMembers_last _ (by decide) hk]
  simp only [bind, Option.bind, hmk1, hmk2, hmk3, hmk4]

theorem decodeJwsHeader_roundtrip {alg kid : String}
    (ha : plainStr alg = true) (hk : plainStr kid = true) :
    decodeJwsHeader (jwsHeaderEnc alg kid) = some [("alg", alg), ("kid", kid)] := by
  rw [decodeJwsHeader, jwsHeaderEnc]
  rw [decodeB64_encodeB64 _ (utf8Encode_lt_256 _)]
  simp only [bind, Option.bind]
  rw [utf8Decode_encode_ascii (serializeHeaderC_ascii ha hk)]
  simp only [bind, Option.bind]
  exact parseJsonObjC_serializeHeader ha hk

/-! ## Structure of Crypto.verify -/

theorem string_ne_empty_of_data {s : String} (h : s.data ≠ []) : s ≠ "" := by
  intro hs
  subst hs
  exact h rfl

theorem verify_eq_core {K : Type} (prims : Primitives K) (resolver : Resolver)
    {sig : String} {hSeg pSeg sSeg : List Char}
    (hdata : sig.data = hSeg ++ '.' :: pSeg ++ '.' :: sSeg)
    (hh : '.' ∉ hSeg) (hp : '.' ∉ pSeg) (hs : '.' ∉ sSeg) :
    Crypto.verify prims resolver { signature := sig, detachedPayload := none } =
      Crypto.verifyCore prims resolver hSeg pSeg sSeg := by
  have hne : sig ≠ "" := string_ne_empty_of_data (by rw [hdata]; simp)
  rw [Crypto.verify]
  rw [if_neg hne]
  have hsplit : splitC '.' sig.data = [hSeg, pSeg, sSeg] := by
    rw [hdata]
    exact splitC_three hh hp hs
  rw [hsplit]

theorem verify_detached_eq_core {K : Type} (prims : Primitives K) (resolver : Resolver)
    {sig : String} {hSeg sSeg : List Char} {payload : List Nat}
    (hdata : sig.data = hSeg ++ '.' :: '.' :: sSeg)
    (hh : '.' ∉ hSeg) (hs : '.' ∉ sSeg) :
    Crypto.verify prims resolver { signature := sig, detachedPayload := some payload } =
      Crypto.verifyCore prims resolver hSeg (encodeB64 payload) sSeg := by
  have hne : sig ≠ "" := string_ne_empty_of_data (by rw [hdata]; simp)
  rw [Crypto.verify]
  rw [if_neg hne]
  have hsplit : splitC '.' sig.data = [hSeg, [], sSeg] := by
    rw [hdata, show hSeg ++ '.' :: '.' :: sSeg = hSeg ++ '.' :: [] ++ '.' :: sSeg by simp]
    exact splitC_three hh (by simp) hs
  rw [hsplit]
  simp

/-- The success path of `Crypto.verifyCore`, given the outcome of every
collaborator call. -/
theorem verifyCore_spec {K : Type} (prims : Primitives K) (resolver : Resolver)
    {hSeg pEnc sSeg : List Char} {hdr : List (String × String)} {algS kidS : String}
    {vm : VerificationMethod} {pk : Jwk} {sigB : List Nat} {algo : SignerValue}
    {key : K} {b : Bool}
    (h1 : decodeJwsHeader hSeg = some hdr)
    (h2 : hdr.lookup "alg" = some algS) (h3 : algS ≠ "")
    (h4 : hdr.lookup "kid" = some kidS) (h5 : kidS ≠ "")
    (h6 : resolver kidS = .ok (some vm))
    (h7 : vm.publicKeyJwk = some pk)
    (h8 : decodeB64 sSeg = some sigB)
    (h9 : Crypto.algorithms.lookup (algS ++ ":" ++ crvStr pk) = some algo)
    (h10 : prims.jwkToCryptoKey (monkeyPatch pk) = .ok key)
    (h11 : prims.verifyFn algo.signer algo.options key
      (utf8Encode (hSeg ++ '.' :: pEnc)) sigB = .ok b) :
    Crypto.verifyCore prims resolver hSeg pEnc sSeg =
      if b then .ok (didOf kidS) else .error errIntegrityMismatch := by
  have ha2 : falsyO (List.lookup "alg" hdr) = false := by rw [h2]; simp [falsyO, h3]
  have hk2 : falsyO (List.lookup "kid" hdr) = false := by rw [h4]; simp [falsyO, h5]
  rw [Crypto.verifyCore, h1]
  simp only [ha2, hk2, Bool.or_self, Bool.false_or, Bool.or_false, if_false, h2, h4,
    Option.getD, h6, h7, h8, h9, h10, h11]
  cases b <;> simp [falsyO, h3, h5]

/-! ## Structure of Crypto.sign and registry facts -/

theorem sign_spec {K : Type} (prims : Primitives K) (detached : Bool) {jwk : Jwk}
    {kid : String} {payload : List Nat} {algo : SignerValue} {key : K}
    {sigBytes : List Nat}
    (h1 : Crypto.algorithms.lookup (jwk.alg.getD "" ++ ":" ++ jwk.crv.getD "") = some algo)
    (h2 : prims.jwkToCryptoKey jwk = .ok key)
    (h3 : prims.signFn algo.signer algo.options key
      (utf8Encode (jwsHeaderEnc algo.alg kid ++ '.' :: encodeB64 payload)) = .ok sigBytes) :
    Crypto.sign prims
        { detached := detached, payload := payload, privateKeyJwk := jwk, kid := kid } =
      .ok (String.mk (
        if detached then jwsHeaderEnc algo.alg kid ++ '.' :: '.' :: encodeB64 sigBytes
        else jwsHeaderEnc algo.alg kid ++ '.' :: encodeB64 payload ++
          '.' :: encodeB64 sigBytes)) := by
  rw [Crypto.sign]
  simp only [jwsHeaderEnc] at h3
  simp only [h1, h2, h3, jwsHeaderEnc]
  cases detached <;> simp

theorem registry_values {k : String} {v : SignerValue}
    (h : Crypto.algorithms.lookup k = some v) :
    v = secp256k1Signer ∨ v = ed25519Signer := by
  simp only [Crypto.algorithms, List.lookup] at h
  repeat' split at h
  all_goals simp_all

theorem registry_alg_plain {k : String} {v : SignerValue}
    (h : Crypto.algorithms.lookup k = some v) :
    plainStr v.alg = true ∧ v.alg ≠ "" := by
  rcases registry_values h with rfl | rfl <;> exact ⟨by decide, by decide⟩

/-! ## Claims -/

/-- C3: `Crypto.sign` derives the registry key from the private key
material's own declared `alg` and `crv`, each missing field replaced by the
empty string; if that key is absent from the registry, signing fails with
the `UnsupportedAlgorithm` error naming the computed key. The conclusion
holds for every `prims`, so no key conversion or signing of the
collaborators can have been observed: the failure happens before any
cryptographic work. -/
theorem C3_sign_unsupported {K : Type} (prims : Primitives K) (opts : SignOptions)
    (h : Crypto.algorithms.lookup
      (opts.privateKeyJwk.alg.getD "" ++ ":" ++ opts.privateKeyJwk.crv.getD "") = none) :
    Crypto.sign prims opts =
      .error (errUnsupported
        (opts.privateKeyJwk.alg.getD "" ++ ":" ++ opts.privateKeyJwk.crv.getD "")) := by
  rw [Crypto.sign, h]

/-- Witness for C3 at the concrete key material `{alg: RS256}`. -/
theorem C3_sign_unsupported_witness :
    Crypto.algorithms.lookup ("RS256" ++ ":" ++ "") = none ∧
    Crypto.sign (sigOnlyPrims [1, 2, 3])
        { detached := false, payload := [], privateKeyJwk := { alg := some "RS256" },
          kid := "did:x#k" } =
      .error (errUnsupported "RS256:") :=
  ⟨by decide, C3_sign_unsupported (sigOnlyPrims [1, 2, 3]) _ (by decide)⟩

/-- C4: verifying an empty signature fails with `MissingSignature`, and
verifying a non-empty signature that does not split on `.` into exactly
three segments fails with `MalformedSignature`; the resolver is
universally quantified and never consulted, so no DID resolution is
performed in either case. -/
theorem C4_missing_or_malformed {K : Type} (prims : Primitives K) (resolver : Resolver)
    (opts : VerifyOptions) :
    (opts.signature = "" →
      Crypto.verify prims resolver opts = .error errMissingSignature) ∧
    (opts.signature ≠ "" → (splitC '.' opts.signature.data).length ≠ 3 →
      Crypto.verify prims resolver opts = .error errMalformedJws) := by
  constructor
  · intro h
    rw [Crypto.verify, if_pos h]
  · intro h hlen
    rw [Crypto.verify, if_neg h]
    split
    · rename_i hs
      rw [hs] at hlen
      simp at hlen
    · rfl

/-- Witness for C4 at the signatures `""`, `"a.b"` and `"a.b.c.d"`. -/
theorem C4_missing_or_malformed_witness :
    Crypto.verify (sigOnlyPrims [1]) (mkResolver "x" vmEd) { signature := "" } =
      .error errMissingSignature ∧
    Crypto.verify (sigOnlyPrims [1]) (mkResolver "x" vmEd) { signature := "a.b" } =
      .error errMalformedJws ∧
    Crypto.verify (sigOnlyPrims [1]) (mkResolver "x" vmEd) { signature := "a.b.c.d" } =
      .error errMalformedJws :=
  ⟨(C4_missing_or_malformed (sigOnlyPrims [1]) (mkResolver "x" vmEd) _).1 rfl,
   (C4_missing_or_malformed (sigOnlyPrims [1]) (mkResolver "x" vmEd) _).2
     (by decide) (by decide),
   (C4_missing_or_malformed (sigOnlyPrims [1]) (mkResolver "x" vmEd) _).2
     (by decide) (by decide)⟩

/-- C6: when a detached payload is supplied, a non-empty embedded payload
segment fails with `MalformedSignature`; with an empty embedded payload
segment, verification behaves exactly as if the base64url encoding of the
detached payload were the payload segment of an attached signature. -/
theorem C6_detached_substitution {K : Type} (prims : Primitives K) (resolver : Resolver)
    {hSeg mSeg sSeg : List Char} (d : List Nat)
    (hh : '.' ∉ hSeg) (hm : '.' ∉ mSeg) (hs : '.' ∉ sSeg) :
    (mSeg ≠ [] →
      Crypto.verify prims resolver
          { signature := String.mk (hSeg ++ '.' :: mSeg ++ '.' :: sSeg),
            detachedPayload := some d } =
        .error errMalformedJws) ∧
    Crypto.verify prims resolver
        { signature := String.mk (hSeg ++ '.' :: '.' :: sSeg),
          detachedPayload := some d } =
      Crypto.verify prims resolver
        { signature := String.mk (hSeg ++ '.' :: encodeB64 d ++ '.' :: sSeg),
          detachedPayload := none } := by
  constructor
  · intro hne
    rw [Crypto.verify]
    rw [if_neg (string_ne_empty_of_data (by simp))]
    rw [show splitC '.' (String.mk (hSeg ++ '.' :: mSeg ++ '.' :: sSeg)).data =
      [hSeg, mSeg, sSeg] from splitC_three hh hm hs]
    simp [hne]
  · rw [verify_detached_eq_core prims resolver rfl hh hs]
    rw [verify_eq_core prims resolver rfl hh (dotFree_encodeB64 d) hs]

/-- Witness for C6 at concrete segments and payload `[7]`. -/
theorem C6_detached_substitution_witness :
    Crypto.verify (sigOnlyPrims [1]) (mkResolver "x" vmEd)
        { signature := String.mk (['A'] ++ '.' :: ['B'] ++ '.' :: ['C', 'C']),
          detachedPayload := some [7] } =
      .error errMalformedJws ∧
    Crypto.verify (sigOnlyPrims [1]) (mkResolver "x" vmEd)
        { signature := String.mk (['A'] ++ '.' :: '.' :: ['C', 'C']),
          detachedPayload := some [7] } =
      Crypto.verify (sigOnlyPrims [1]) (mkResolver "x" vmEd)
        { signature := String.mk (['A'] ++ '.' :: encodeB64 [7] ++ '.' :: ['C', 'C']),
          detachedPayload := none } :=
  ⟨(@C6_detached_substitution Unit (sigOnlyPrims [1]) (mkResolver "x" vmEd)
      ['A'] ['B'] ['C', 'C'] [7]
      (by decide) (by decide) (by decide)).1 (by decide),
   (@C6_detached_substitution Unit (sigOnlyPrims [1]) (mkResolver "x" vmEd)
      ['A'] ['B'] ['C', 'C'] [7]
      (by decide) (by decide) (by decide)).2⟩

/-- Helper: the core pipeline stops with `MalformedHeader` when the decoded
header lacks a truthy `alg` or `kid`. -/
theorem verifyCore_malformedHeader {K : Type} (prims : Primitives K) (resolver : Resolver)
    {hSeg : List Char} (pEnc sSeg : List Char) {hdr : List (String × String)}
    (h1 : decodeJwsHeader hSeg = some hdr)
    (hbad : falsyO (hdr.lookup "alg") = true ∨ falsyO (hdr.lookup "kid") = true) :
    Crypto.verifyCore prims resolver hSeg pEnc sSeg = .error errMalformedHeader := by
  rw [Crypto.verifyCore, h1]
  have hb : (falsyO (hdr.lookup "alg") || falsyO (hdr.lookup "kid")) = true := by
    rcases hbad with h | h <;> simp [h]
  simp only [hb, if_true]

/-- C7: if a three-segment signature's decoded header JSON lacks a
non-empty `alg` or a non-empty `kid`, verification fails with
`MalformedHeader`; the resolver is universally quantified, so the DID
Resolution collaborator is not consulted. -/
theorem C7_malformed_header {K : Type} (prims : Primitives K) (resolver : Resolver)
    {sig : String} {hSeg pSeg sSeg : List Char} {dp : Option (List Nat)}
    {hdr : List (String × String)}
    (hdata : sig.data = hSeg ++ '.' :: pSeg ++ '.' :: sSeg)
    (hh : '.' ∉ hSeg) (hp : '.' ∉ pSeg) (hs : '.' ∉ sSeg)
    (hdp : dp = none ∨ pSeg = [])
    (h1 : decodeJwsHeader hSeg = some hdr)
    (hbad : falsyO (hdr.lookup "alg") = true ∨ falsyO (hdr.lookup "kid") = true) :
    Crypto.verify prims resolver { signature := sig, detachedPayload := dp } =
      .error errMalformedHeader := by
  cases hdpc : dp with
  | none =>
    rw [verify_eq_core prims resolver hdata hh hp hs]
    exact verifyCore_malformedHeader prims resolver pSeg sSeg h1 hbad
  | some d =>
    have hpe : pSeg = [] := by
      rcases hdp with h | h
      · rw [hdpc] at h; cases h
      · exact h
    subst hpe
    rw [verify_detached_eq_core prims resolver (by simpa using hdata) hh hs]
    exact verifyCore_malformedHeader prims resolver (encodeB64 d) sSeg h1 hbad

/-- Witness for C7: a header carrying only `alg`, encoded as the first
segment of a three-segment signature. -/
theorem C7_malformed_header_witness :
    decodeJwsHeader (encodeB64 (utf8Encode hdrAlgOnly)) = some [("alg", "EdDSA")] ∧
    Crypto.verify (sigOnlyPrims [1]) (mkResolver "x" vmEd)
        { signature := String.mk (encodeB64 (utf8Encode hdrAlgOnly) ++
            '.' :: ['A', 'A'] ++ '.' :: ['A', 'A']),
          detachedPayload := none } =
      .error errMalformedHeader :=
  ⟨by decide,
   @C7_malformed_header Unit (sigOnlyPrims [1]) (mkResolver "x" vmEd)
     (String.mk (encodeB64 (utf8Encode hdrAlgOnly) ++ '.' :: ['A', 'A'] ++ '.' :: ['A', 'A']))
     (encodeB64 (utf8Encode hdrAlgOnly)) ['A', 'A'] ['A', 'A'] none [("alg", "EdDSA")]
     rfl (by decide) (by decide) (by decide) (Or.inl rfl) (by decide) (by decide)⟩

/-- Helper: the core pipeline throws the destructuring TypeError when the
composite `alg:crv` key is absent from the registry. -/
theorem verifyCore_destructure {K : Type} (prims : Primitives K) (resolver : Resolver)
    {hSeg : List Char} (pEnc : List Char) {sSeg : List Char}
    {hdr : List (String × String)} {algS kidS : String} {vm : VerificationMethod}
    {pk : Jwk} {sigB : List Nat}
    (h1 : decodeJwsHeader hSeg = some hdr)
    (h2 : hdr.lookup "alg" = some algS) (h3 : algS ≠ "")
    (h4 : hdr.lookup "kid" = some kidS) (h5 : kidS ≠ "")
    (h6 : resolver kidS = .ok (some vm))
    (h7 : vm.publicKeyJwk = some pk)
    (h8 : decodeB64 sSeg = some sigB)
    (h9 : Crypto.algorithms.lookup (algS ++ ":" ++ crvStr pk) = none) :
    Crypto.verifyCore prims resolver hSeg pEnc sSeg = .error errDestructureSigner := by
  have ha2 : falsyO (List.lookup "alg" hdr) = false := by rw [h2]; simp [falsyO, h3]
  have hk2 : falsyO (List.lookup "kid" hdr) = false := by rw [h4]; simp [falsyO, h5]
  rw [Crypto.verifyCore, h1]
  simp only [ha2, hk2, Bool.or_self, Bool.false_or, Bool.or_false, if_false, h2, h4,
    Option.getD, h6, h7, h8, h9]
  simp [falsyO, h3, h5]

/-- C2 (amended): when the composite key `header.alg : publicKey.crv` is
absent from the registry, verification still fails — but with the runtime
TypeError raised by destructuring the `undefined` registry entry (there is
no explicit registry check in `verify`), not with a descriptive
`UnsupportedAlgorithm` error. -/
theorem C2_amended_destructure {K : Type} (prims : Primitives K) (resolver : Resolver)
    {sig : String} {hSeg pSeg sSeg : List Char} {dp : Option (List Nat)}
    {hdr : List (String × String)} {algS kidS : String} {vm : VerificationMethod}
    {pk : Jwk} {sigB : List Nat}
    (hdata : sig.data = hSeg ++ '.' :: pSeg ++ '.' :: sSeg)
    (hh : '.' ∉ hSeg) (hp : '.' ∉ pSeg) (hs : '.' ∉ sSeg)
    (hdp : dp = none ∨ pSeg = [])
    (h1 : decodeJwsHeader hSeg = some hdr)
    (h2 : hdr.lookup "alg" = some algS) (h3 : algS ≠ "")
    (h4 : hdr.lookup "kid" = some kidS) (h5 : kidS ≠ "")
    (h6 : resolver kidS = .ok (some vm))
    (h7 : vm.publicKeyJwk = some pk)
    (h8 : decodeB64 sSeg = some sigB)
    (h9 : Crypto.algorithms.lookup (algS ++ ":" ++ crvStr pk) = none) :
    Crypto.verify prims resolver { signature := sig, detachedPayload := dp } =
      .error errDestructureSigner := by
  cases hdpc : dp with
  | none =>
    rw [verify_eq_core prims resolver hdata hh hp hs]
    exact verifyCore_destructure prims resolver pSeg h1 h2 h3 h4 h5 h6 h7 h8 h9
  | some d =>
    have hpe : pSeg = [] := by
      rcases hdp with h | h
      · rw [hdpc] at h; cases h
      · exact h
    subst hpe
    rw [verify_detached_eq_core prims resolver (by simpa using hdata) hh hs]
    exact verifyCore_destructure prims resolver (encodeB64 d) h1 h2 h3 h4 h5 h6 h7 h8 h9

/-- Witness for the amended C2: header algorithm `EdDSA` against a resolved
secp256k1 public key; `EdDSA:secp256k1` is not a registry key. -/
theorem C2_amended_destructure_witness :
    Crypto.algorithms.lookup ("EdDSA" ++ ":" ++ crvStr { crv := some "secp256k1" }) = none ∧
    Crypto.verify (sigOnlyPrims [1]) (mkResolver "did:x#k" vmSecp)
        { signature := String.mk (jwsHeaderEnc "EdDSA" "did:x#k" ++
            '.' :: ['A', 'A'] ++ '.' :: ['A', 'A']),
          detachedPayload := none } =
      .error errDestructureSigner :=
  ⟨by decide,
   @C2_amended_destructure Unit (sigOnlyPrims [1]) (mkResolver "did:x#k" vmSecp)
     (String.mk (jwsHeaderEnc "EdDSA" "did:x#k" ++ '.' :: ['A', 'A'] ++ '.' :: ['A', 'A']))
     (jwsHeaderEnc "EdDSA" "did:x#k") ['A', 'A'] ['A', 'A'] none
     [("alg", "EdDSA"), ("kid", "did:x#k")] "EdDSA" "did:x#k" vmSecp
     { crv := some "secp256k1" } [0]
     rfl (by decide) (by decide) (by decide) (Or.inl rfl) (by decide) (by decide)
     (by decide) (by decide) (by decide) (by decide) (by decide) (by decide) (by decide)⟩

/-- Counterexample to C2 as stated: at this input the composite key
`EdDSA:secp256k1` is absent from the registry, and verification fails with
the destructuring TypeError — which is not the `UnsupportedAlgorithm`
error (`"EdDSA:secp256k1 not supported"`) nor any taxonomy-named error. -/
theorem C2_counterexample :
    Crypto.verify (sigOnlyPrims [1]) (mkResolver "did:x#k" vmSecp)
        { signature := String.mk (jwsHeaderEnc "EdDSA" "did:x#k" ++
            '.' :: ['A', 'A'] ++ '.' :: ['A', 'A']),
          detachedPayload := none } =
      .error errDestructureSigner ∧
    errDestructureSigner ≠ errUnsupported "EdDSA:secp256k1" := by
  constructor
  · decide
  · decide

/-- Helper: `List.lookup` on the two-member header association list. -/
theorem lookup_header_alg (a k : String) :
    List.lookup "alg" [("alg", a), ("kid", k)] = some a := by
  rw [List.lookup]
  rw [show ("alg" == "alg") = true from by decide]

theorem lookup_header_kid (a k : String) :
    List.lookup "kid" [("alg", a), ("kid", k)] = some k := by
  rw [List.lookup]
  rw [show ("kid" == "alg") = false from by decide]
  rw [List.lookup]
  rw [show ("kid" == "kid") = true from by decide]

/-- C1: for key material whose declared `alg`/`crv` composite is a registry
key, and a resolver that dereferences the kid to a public key whose curve
again composes with the header algorithm into a registry key, verifying an
attached signature produced by `Crypto.sign` succeeds — provided the
underlying algorithm accepts what it signed — and returns the substring of
the kid preceding the first `#`. -/
theorem C1_sign_verify_roundtrip {K : Type} (prims : Primitives K) (resolver : Resolver)
    {jwk : Jwk} {kid : String} (payload : List Nat) {algo algo2 : SignerValue}
    {vm : VerificationMethod} {pk : Jwk} {k1 k2 : K} {sigBytes : List Nat}
    (halgo : Crypto.algorithms.lookup (jwk.alg.getD "" ++ ":" ++ jwk.crv.getD "") = some algo)
    (hkid : plainStr kid = true) (hkidne : kid ≠ "")
    (hk1 : prims.jwkToCryptoKey jwk = .ok k1)
    (hsig : prims.signFn algo.signer algo.options k1
      (utf8Encode (jwsHeaderEnc algo.alg kid ++ '.' :: encodeB64 payload)) = .ok sigBytes)
    (hsb : ∀ b ∈ sigBytes, b < 256)
    (hres : resolver kid = .ok (some vm))
    (hpk : vm.publicKeyJwk = some pk)
    (halgo2 : Crypto.algorithms.lookup (algo.alg ++ ":" ++ crvStr pk) = some algo2)
    (hk2 : prims.jwkToCryptoKey (monkeyPatch pk) = .ok k2)
    (hver : prims.verifyFn algo2.signer algo2.options k2
      (utf8Encode (jwsHeaderEnc algo.alg kid ++ '.' :: encodeB64 payload)) sigBytes = .ok true) :
    ∃ jws : String,
      Crypto.sign prims
          { detached := false, payload := payload, privateKeyJwk := jwk, kid := kid } =
        .ok jws ∧
      Crypto.verify prims resolver { signature := jws, detachedPayload := none } =
        .ok (didOf kid) ∧
      didOf kid = String.mk (kid.data.takeWhile (fun c => !(c = '#'))) := by
  obtain ⟨haplain, hane⟩ := registry_alg_plain halgo
  have hjws := sign_spec prims false halgo hk1 hsig
  simp only [Bool.false_eq_true, if_false] at hjws
  refine ⟨_, hjws, ?_, ?_⟩
  · rw [verify_eq_core prims resolver rfl
      (show '.' ∉ jwsHeaderEnc algo.alg kid from dotFree_encodeB64 _)
      (dotFree_encodeB64 payload) (dotFree_encodeB64 sigBytes)]
    rw [verifyCore_spec prims resolver (decodeJwsHeader_roundtrip haplain hkid)
      (lookup_header_alg _ _) hane (lookup_header_kid _ _) hkidne hres hpk
      (decodeB64_encodeB64 _ hsb) halgo2 hk2 hver]
    simp
  · rw [didOf, headSeg_eq_takeWhile]

/-- Witness for C1 at the registry pair `EdDSA:Ed25519`, the empty payload,
and `kid = "did:example:abc#key-1"`. -/
theorem C1_sign_verify_roundtrip_witness :
    ∃ jws : String,
      Crypto.sign (sigOnlyPrims [1, 2, 3])
          { detached := false, payload := [], privateKeyJwk := jwkEd,
            kid := "did:example:abc#key-1" } =
        .ok jws ∧
      Crypto.verify (sigOnlyPrims [1, 2, 3]) (mkResolver "did:example:abc#key-1" vmEd)
          { signature := jws, detachedPayload := none } =
        .ok (didOf "did:example:abc#key-1") ∧
      didOf "did:example:abc#key-1" =
        String.mk ("did:example:abc#key-1".data.takeWhile (fun c => !(c = '#'))) :=
  @C1_sign_verify_roundtrip Unit (sigOnlyPrims [1, 2, 3])
    (mkResolver "did:example:abc#key-1" vmEd)
    jwkEd "did:example:abc#key-1" [] ed25519Signer ed25519Signer vmEd
    { crv := some "Ed25519" } () () [1, 2, 3]
    (by decide) (by decide) (by decide) rfl rfl (by decide) (by decide) (by decide)
    (by decide) rfl rfl

/-- C10: `Crypto.verify` never requires the header kid to contain a `#`
separator: whenever the pipeline reaches a successful signature check with
a kid containing no `#`, it returns the entire kid string unchanged, rather
than failing or returning a proper DID prefix. -/
theorem C10_kid_without_fragment {K : Type} (prims : Primitives K) (resolver : Resolver)
    {sig : String} {hSeg pSeg sSeg : List Char} {dp : Option (List Nat)}
    {hdr : List (String × String)} {algS kidS : String} {vm : VerificationMethod}
    {pk : Jwk} {sigB : List Nat} {algo : SignerValue} {key : K}
    (hdata : sig.data = hSeg ++ '.' :: pSeg ++ '.' :: sSeg)
    (hh : '.' ∉ hSeg) (hp : '.' ∉ pSeg) (hs : '.' ∉ sSeg)
    (hdp : dp = none ∨ pSeg = [])
    (h1 : decodeJwsHeader hSeg = some hdr)
    (h2 : hdr.lookup "alg" = some algS) (h3 : algS ≠ "")
    (h4 : hdr.lookup "kid" = some kidS) (h5 : kidS ≠ "")
    (h6 : resolver kidS = .ok (some vm))
    (h7 : vm.publicKeyJwk = some pk)
    (h8 : decodeB64 sSeg = some sigB)
    (h9 : Crypto.algorithms.lookup (algS ++ ":" ++ crvStr pk) = some algo)
    (h10 : prims.jwkToCryptoKey (monkeyPatch pk) = .ok key)
    (h11 : ∀ pEnc : List Char, prims.verifyFn algo.signer algo.options key
      (utf8Encode (hSeg ++ '.' :: pEnc)) sigB = .ok true)
    (hnohash : '#' ∉ kidS.data) :
    Crypto.verify prims resolver { signature := sig, detachedPayload := dp } =
      .ok kidS := by
  have hdid : didOf kidS = kidS := by
    rw [didOf, headSeg_sepFree hnohash]
  cases hdpc : dp with
  | none =>
    rw [verify_eq_core prims resolver hdata hh hp hs]
    rw [verifyCore_spec prims resolver h1 h2 h3 h4 h5 h6 h7 h8 h9 h10 (h11 pSeg)]
    simp [hdid]
  | some d =>
    have hpe : pSeg = [] := by
      rcases hdp with h | h
      · rw [hdpc] at h; cases h
      · exact h
    subst hpe
    rw [verify_detached_eq_core prims resolver (by simpa using hdata) hh hs]
    rw [verifyCore_spec prims resolver h1 h2 h3 h4 h5 h6 h7 h8 h9 h10 (h11 (encodeB64 d))]
    simp [hdid]

/-- Witness for C10 at the fragment-free kid `did:nofragment`. -/
theorem C10_kid_without_fragment_witness :
    '#' ∉ "did:nofragment".data ∧
    Crypto.verify (sigOnlyPrims [1, 2, 3]) (mkResolver "did:nofragment" vmEd)
        { signature := String.mk (jwsHeaderEnc "EdDSA" "did:nofragment" ++
            '.' :: encodeB64 [7] ++ '.' :: encodeB64 [1, 2, 3]),
          detachedPayload := none } =
      .ok "did:nofragment" :=
  ⟨by decide,
   @C10_kid_without_fragment Unit (sigOnlyPrims [1, 2, 3])
     (mkResolver "did:nofragment" vmEd)
     (String.mk (jwsHeaderEnc "EdDSA" "did:nofragment" ++
       '.' :: encodeB64 [7] ++ '.' :: encodeB64 [1, 2, 3]))
     (jwsHeaderEnc "EdDSA" "did:nofragment") (encodeB64 [7]) (encodeB64 [1, 2, 3]) none
     [("alg", "EdDSA"), ("kid", "did:nofragment")] "EdDSA" "did:nofragment" vmEd
     { crv := some "Ed25519" } [1, 2, 3] ed25519Signer ()
     rfl (by decide) (by decide) (by decide) (Or.inl rfl) (by decide) (by decide)
     (by decide) (by decide) (by decide) (by decide) (by decide) (by decide) (by decide)
     (by decide) (fun pEnc => rfl) (by decide)⟩

/-- C5: detached signing produces `"<encodedHeader>..<encodedSignature>"`
with an empty payload segment; verifying it against the original detached
payload succeeds with the signer DID (when the algorithm accepts the signed
data), and verifying it against any detached payload whose signed data the
algorithm rejects fails with `IntegrityMismatch`. -/
theorem C5_detached_roundtrip {K : Type} (prims : Primitives K) (resolver : Resolver)
    {jwk : Jwk} {kid : String} (payload : List Nat) {algo algo2 : SignerValue}
    {vm : VerificationMethod} {pk : Jwk} {k1 k2 : K} {sigBytes : List Nat}
    (halgo : Crypto.algorithms.lookup (jwk.alg.getD "" ++ ":" ++ jwk.crv.getD "") = some algo)
    (hkid : plainStr kid = true) (hkidne : kid ≠ "")
    (hk1 : prims.jwkToCryptoKey jwk = .ok k1)
    (hsig : prims.signFn algo.signer algo.options k1
      (utf8Encode (jwsHeaderEnc algo.alg kid ++ '.' :: encodeB64 payload)) = .ok sigBytes)
    (hsb : ∀ b ∈ sigBytes, b < 256)
    (hres : resolver kid = .ok (some vm))
    (hpk : vm.publicKeyJwk = some pk)
    (halgo2 : Crypto.algorithms.lookup (algo.alg ++ ":" ++ crvStr pk) = some algo2)
    (hk2 : prims.jwkToCryptoKey (monkeyPatch pk) = .ok k2)
    (hver : prims.verifyFn algo2.signer algo2.options k2
      (utf8Encode (jwsHeaderEnc algo.alg kid ++ '.' :: encodeB64 payload)) sigBytes =
        .ok true) :
    ∃ jws : String,
      Crypto.sign prims
          { detached := true, payload := payload, privateKeyJwk := jwk, kid := kid } =
        .ok jws ∧
      splitC '.' jws.data = [jwsHeaderEnc algo.alg kid, [], encodeB64 sigBytes] ∧
      Crypto.verify prims resolver
          { signature := jws, detachedPayload := some payload } = .ok (didOf kid) ∧
      (∀ payload2 : List Nat,
        prims.verifyFn algo2.signer algo2.options k2
            (utf8Encode (jwsHeaderEnc algo.alg kid ++ '.' :: encodeB64 payload2)) sigBytes =
          .ok false →
        Crypto.verify prims resolver
            { signature := jws, detachedPayload := some payload2 } =
          .error errIntegrityMismatch) := by
  obtain ⟨haplain, hane⟩ := registry_alg_plain halgo
  have hjws := sign_spec prims true halgo hk1 hsig
  simp only [if_true] at hjws
  refine ⟨_, hjws, ?_, ?_, ?_⟩
  · rw [show jwsHeaderEnc algo.alg kid ++ '.' :: '.' :: encodeB64 sigBytes =
      jwsHeaderEnc algo.alg kid ++ '.' :: [] ++ '.' :: encodeB64 sigBytes by simp]
    exact splitC_three (dotFree_encodeB64 _) (by simp) (dotFree_encodeB64 _)
  · rw [verify_detached_eq_core prims resolver rfl
      (show '.' ∉ jwsHeaderEnc algo.alg kid from dotFree_encodeB64 _)
      (dotFree_encodeB64 sigBytes)]
    rw [verifyCore_spec prims resolver (decodeJwsHeader_roundtrip haplain hkid)
      (lookup_header_alg _ _) hane (lookup_header_kid _ _) hkidne hres hpk
      (decodeB64_encodeB64 _ hsb) halgo2 hk2 hver]
    simp
  · intro payload2 hver2
    rw [verify_detached_eq_core prims resolver rfl
      (show '.' ∉ jwsHeaderEnc algo.alg kid from dotFree_encodeB64 _)
      (dotFree_encodeB64 sigBytes)]
    rw [verifyCore_spec prims resolver (decodeJwsHeader_roundtrip haplain hkid)
      (lookup_header_alg _ _) hane (lookup_header_kid _ _) hkidne hres hpk
      (decodeB64_encodeB64 _ hsb) halgo2 hk2 hver2]
    simp

/-- Witness for C5: payload `[1]` signed detached with an Ed25519 key;
verifying against `[1]` succeeds, against `[2]` fails with
`IntegrityMismatch`. -/
theorem C5_detached_roundtrip_witness :
    ∃ jws : String,
      Crypto.sign (eqPrims
            (utf8Encode (jwsHeaderEnc "EdDSA" "did:example:abc#key-1" ++
              '.' :: encodeB64 [1])) [9])
          { detached := true, payload := [1], privateKeyJwk := jwkEd,
            kid := "did:example:abc#key-1" } =
        .ok jws ∧
      splitC '.' jws.data =
        [jwsHeaderEnc "EdDSA" "did:example:abc#key-1", [], encodeB64 [9]] ∧
      Crypto.verify (eqPrims
            (utf8Encode (jwsHeaderEnc "EdDSA" "did:example:abc#key-1" ++
              '.' :: encodeB64 [1])) [9])
          (mkResolver "did:example:abc#key-1" vmEd)
          { signature := jws, detachedPayload := some [1] } =
        .ok (didOf "did:example:abc#key-1") ∧
      (∀ payload2 : List Nat,
        (eqPrims
            (utf8Encode (jwsHeaderEnc "EdDSA" "did:example:abc#key-1" ++
              '.' :: encodeB64 [1])) [9]).verifyFn
            ed25519Signer.signer ed25519Signer.options ()
            (utf8Encode (jwsHeaderEnc "EdDSA" "did:example:abc#key-1" ++
              '.' :: encodeB64 payload2)) [9] =
          .ok false →
        Crypto.verify (eqPrims
              (utf8Encode (jwsHeaderEnc "EdDSA" "did:example:abc#key-1" ++
                '.' :: encodeB64 [1])) [9])
            (mkResolver "did:example:abc#key-1" vmEd)
            { signature := jws, detachedPayload := some payload2 } =
          .error errIntegrityMismatch) :=
  @C5_detached_roundtrip Unit
    (eqPrims (utf8Encode (jwsHeaderEnc "EdDSA" "did:example:abc#key-1" ++
      '.' :: encodeB64 [1])) [9])
    (mkResolver "did:example:abc#key-1" vmEd)
    jwkEd "did:example:abc#key-1" [1] ed25519Signer ed25519Signer vmEd
    { crv := some "Ed25519" } () () [9]
    (by decide) (by decide) (by decide) rfl (by decide) (by decide) (by decide)
    (by decide) (by decide) rfl (by decide)

/-- C9 (amended): for a previously valid compact signature, mutations never
yield silent success, but the failure kinds differ from the original claim:
a mutated payload segment the algorithm rejects fails with
`IntegrityMismatch`; a mutated signature segment that still decodes to
bytes the algorithm rejects fails with `IntegrityMismatch` (not
`MalformedSignature`); a mutated header segment that still decodes,
resolves and matches the registry, but whose signed data the algorithm
rejects, fails with `IntegrityMismatch` (not `MalformedHeader`; header
mutations failing an earlier pipeline stage fail with that stage's error
instead). -/
theorem C9_amended_mutation_failures {K : Type} (prims : Primitives K) (resolver : Resolver)
    {hSeg pSeg sSeg : List Char}
    {hdr : List (String × String)} {algS kidS : String} {vm : VerificationMethod}
    {pk : Jwk} {sigB : List Nat} {algo : SignerValue} {key : K}
    (hh : '.' ∉ hSeg) (hp : '.' ∉ pSeg) (hs : '.' ∉ sSeg)
    (h1 : decodeJwsHeader hSeg = some hdr)
    (h2 : hdr.lookup "alg" = some algS) (h3 : algS ≠ "")
    (h4 : hdr.lookup "kid" = some kidS) (h5 : kidS ≠ "")
    (h6 : resolver kidS = .ok (some vm))
    (h7 : vm.publicKeyJwk = some pk)
    (h8 : decodeB64 sSeg = some sigB)
    (h9 : Crypto.algorithms.lookup (algS ++ ":" ++ crvStr pk) = some algo)
    (h10 : prims.jwkToCryptoKey (monkeyPatch pk) = .ok key)
    (h11 : prims.verifyFn algo.signer algo.options key
      (utf8Encode (hSeg ++ '.' :: pSeg)) sigB = .ok true) :
    Crypto.verify prims resolver
        { signature := String.mk (hSeg ++ '.' :: pSeg ++ '.' :: sSeg),
          detachedPayload := none } = .ok (didOf kidS) ∧
    (∀ pSeg2 : List Char, '.' ∉ pSeg2 →
      prims.verifyFn algo.signer algo.options key
          (utf8Encode (hSeg ++ '.' :: pSeg2)) sigB = .ok false →
      Crypto.verify prims resolver
          { signature := String.mk (hSeg ++ '.' :: pSeg2 ++ '.' :: sSeg),
            detachedPayload := none } = .error errIntegrityMismatch) ∧
    (∀ (sSeg2 : List Char) (sigB2 : List Nat), '.' ∉ sSeg2 →
      decodeB64 sSeg2 = some sigB2 →
      prims.verifyFn algo.signer algo.options key
          (utf8Encode (hSeg ++ '.' :: pSeg)) sigB2 = .ok false →
      Crypto.verify prims resolver
          { signature := String.mk (hSeg ++ '.' :: pSeg ++ '.' :: sSeg2),
            detachedPayload := none } = .error errIntegrityMismatch) ∧
    (∀ (hSeg2 : List Char) (hdr2 : List (String × String)) (algS2 kidS2 : String)
        (vm2 : VerificationMethod) (pk2 : Jwk) (algo2 : SignerValue) (key2 : K),
      '.' ∉ hSeg2 →
      decodeJwsHeader hSeg2 = some hdr2 →
      hdr2.lookup "alg" = some algS2 → algS2 ≠ "" →
      hdr2.lookup "kid" = some kidS2 → kidS2 ≠ "" →
      resolver kidS2 = .ok (some vm2) → vm2.publicKeyJwk = some pk2 →
      Crypto.algorithms.lookup (algS2 ++ ":" ++ crvStr pk2) = some algo2 →
      prims.jwkToCryptoKey (monkeyPatch pk2) = .ok key2 →
      prims.verifyFn algo2.signer algo2.options key2
          (utf8Encode (hSeg2 ++ '.' :: pSeg)) sigB = .ok false →
      Crypto.verify prims resolver
          { signature := String.mk (hSeg2 ++ '.' :: pSeg ++ '.' :: sSeg),
            detachedPayload := none } = .error errIntegrityMismatch) := by
  refine ⟨?_, ?_, ?_, ?_⟩
  · rw [verify_eq_core prims resolver rfl hh hp hs]
    rw [verifyCore_spec prims resolver h1 h2 h3 h4 h5 h6 h7 h8 h9 h10 h11]
    simp
  · intro pSeg2 hp2 hver2
    rw [verify_eq_core prims resolver rfl hh hp2 hs]
    rw [verifyCore_spec prims resolver h1 h2 h3 h4 h5 h6 h7 h8 h9 h10 hver2]
    simp
  · intro sSeg2 sigB2 hs2 hdec2 hver2
    rw [verify_eq_core prims resolver rfl hh hp hs2]
    rw [verifyCore_spec prims resolver h1 h2 h3 h4 h5 h6 h7 hdec2 h9 h10 hver2]
    simp
  · intro hSeg2 hdr2 algS2 kidS2 vm2 pk2 algo2 key2 hh2 hd2 ha2 han2 hk2 hkn2 hr2 hp2 hal2 hkey2 hver2
    rw [verify_eq_core prims resolver rfl hh2 hp hs]
    rw [verifyCore_spec prims resolver hd2 ha2 han2 hk2 hkn2 hr2 hp2 h8 hal2 hkey2 hver2]
    simp

/-- Witness for the amended C9: a concretely valid signature; flipping bit
2 of the first signature-segment character and flipping bit 1 of header
character 29 each fail with `IntegrityMismatch`. -/
theorem C9_amended_mutation_failures_witness :
    Crypto.verify
        (eqPrims (utf8Encode (jwsHeaderEnc "EdDSA" "did:example:abc#key-1" ++
          '.' :: encodeB64 [1])) [1, 2, 3]) resolverAny
        { signature := String.mk (jwsHeaderEnc "EdDSA" "did:example:abc#key-1" ++
            '.' :: encodeB64 [1] ++ '.' :: encodeB64 [1, 2, 3]),
          detachedPayload := none } =
      .ok (didOf "did:example:abc#key-1") ∧
    Crypto.verify
        (eqPrims (utf8Encode (jwsHeaderEnc "EdDSA" "did:example:abc#key-1" ++
          '.' :: encodeB64 [1])) [1, 2, 3]) resolverAny
        { signature := String.mk (jwsHeaderEnc "EdDSA" "did:example:abc#key-1" ++
            '.' :: encodeB64 [1] ++ '.' :: bitFlipAt (encodeB64 [1, 2, 3]) 0 2),
          detachedPayload := none } =
      .error errIntegrityMismatch ∧
    Crypto.verify
        (eqPrims (utf8Encode (jwsHeaderEnc "EdDSA" "did:example:abc#key-1" ++
          '.' :: encodeB64 [1])) [1, 2, 3]) resolverAny
        { signature := String.mk (bitFlipAt (jwsHeaderEnc "EdDSA" "did:example:abc#key-1") 29 1 ++
            '.' :: encodeB64 [1] ++ '.' :: encodeB64 [1, 2, 3]),
          detachedPayload := none } =
      .error errIntegrityMismatch := by
  have main := @C9_amended_mutation_failures Unit
    (eqPrims (utf8Encode (jwsHeaderEnc "EdDSA" "did:example:abc#key-1" ++
      '.' :: encodeB64 [1])) [1, 2, 3]) resolverAny
    (jwsHeaderEnc "EdDSA" "did:example:abc#key-1")
    (encodeB64 [1]) (encodeB64 [1, 2, 3])
    [("alg", "EdDSA"), ("kid", "did:example:abc#key-1")]
    "EdDSA" "did:example:abc#key-1" vmEd
    { crv := some "Ed25519" } [1, 2, 3] ed25519Signer ()
    (by decide) (by decide) (by decide) (by decide) (by decide) (by decide)
    (by decide) (by decide) (by decide) (by decide) (by decide) (by decide)
    (by decide) (by decide)
  refine ⟨main.1, ?_, ?_⟩
  · exact main.2.2.1 (bitFlipAt (encodeB64 [1, 2, 3]) 0 2) [9, 2, 3]
      (by decide) (by decide) (by decide)
  · exact main.2.2.2 (bitFlipAt (jwsHeaderEnc "EdDSA" "did:example:abc#key-1") 29 1)
      [("alg", "EdDSA"), ("kid", "Tid:example:abc#key-1")] "EdDSA"
      "Tid:example:abc#key-1" vmEd { crv := some "Ed25519" } ed25519Signer ()
      (by decide) (by decide) (by decide) (by decide) (by decide) (by decide)
      (by decide) (by decide) (by decide) (by decide) (by decide)

/-- Counterexample to C9 as stated: at this previously valid signature,
flipping one bit of a signature-segment character fails with
`IntegrityMismatch` rather than `MalformedSignature`, and flipping one bit
of a header-segment character fails with `IntegrityMismatch` rather than
`MalformedHeader`. -/
theorem C9_counterexample :
    Crypto.verify
        (eqPrims (utf8Encode (jwsHeaderEnc "EdDSA" "did:example:abc#key-1" ++
          '.' :: encodeB64 [1])) [1, 2, 3]) resolverAny
        { signature := String.mk (jwsHeaderEnc "EdDSA" "did:example:abc#key-1" ++
            '.' :: encodeB64 [1] ++ '.' :: encodeB64 [1, 2, 3]),
          detachedPayload := none } =
      .ok "did:example:abc" ∧
    Crypto.verify
        (eqPrims (utf8Encode (jwsHeaderEnc "EdDSA" "did:example:abc#key-1" ++
          '.' :: encodeB64 [1])) [1, 2, 3]) resolverAny
        { signature := String.mk (jwsHeaderEnc "EdDSA" "did:example:abc#key-1" ++
            '.' :: encodeB64 [1] ++ '.' :: bitFlipAt (encodeB64 [1, 2, 3]) 0 2),
          detachedPayload := none } =
      .error errIntegrityMismatch ∧
    errIntegrityMismatch ≠ errMalformedJws ∧
    Crypto.verify
        (eqPrims (utf8Encode (jwsHeaderEnc "EdDSA" "did:example:abc#key-1" ++
          '.' :: encodeB64 [1])) [1, 2, 3]) resolverAny
        { signature := String.mk (bitFlipAt (jwsHeaderEnc "EdDSA" "did:example:abc#key-1") 29 1 ++
            '.' :: encodeB64 [1] ++ '.' :: encodeB64 [1, 2, 3]),
          detachedPayload := none } =
      .error errIntegrityMismatch ∧
    errIntegrityMismatch ≠ errMalformedHeader := by
  refine ⟨by decide, by decide, by decide, by decide, by decide⟩

/-! ## Canonical digest: key-order independence -/

theorem canonPairs_eq_map :
    ∀ l : List (String × Jsonv), canonPairs l = l.map fun p => (p.1, canon p.2)
  | [] => rfl
  | (k, v) :: ps => by
    rw [canonPairs, canonPairs_eq_map ps]
    rfl

theorem canonPairs_keys (l : List (String × Jsonv)) :
    (canonPairs l).map Prod.fst = l.map Prod.fst := by
  rw [canonPairs_eq_map, List.map_map]
  rfl

theorem nodupKeysB_iff : ∀ L : List String, nodupKeysB L = true ↔ L.Nodup
  | [] => by simp [nodupKeysB]
  | k :: ks => by
    rw [nodupKeysB, List.nodup_cons, ← nodupKeysB_iff ks]
    simp

theorem nodupDeepPairs_mem :
    ∀ l : List (String × Jsonv), nodupDeepPairs l = true ↔ ∀ p ∈ l, nodupDeep p.2 = true
  | [] => by simp [nodupDeepPairs]
  | (k, v) :: ps => by
    rw [nodupDeepPairs, Bool.and_eq_true, nodupDeepPairs_mem ps]
    constructor
    · rintro ⟨h1, h2⟩ p hp
      rcases List.mem_cons.mp hp with rfl | hp
      · exact h1
      · exact h2 p hp
    · intro h
      exact ⟨h (k, v) (by simp), fun p hp => h p (by simp [hp])⟩

theorem nodupDeepPairs_perm {ps qs : List (String × Jsonv)}
    (hperm : ps.Perm qs) (h : nodupDeepPairs ps = true) : nodupDeepPairs qs = true := by
  rw [nodupDeepPairs_mem] at h ⊢
  intro p hp
  exact h p (hperm.mem_iff.mpr hp)

theorem sortPairs_sorted (l : List (String × List Char)) :
    List.Sorted keyLe (sortPairs l) :=
  List.sorted_insertionSort keyLe l

theorem sortPairs_perm (l : List (String × List Char)) :
    List.Perm (sortPairs l) l :=
  List.perm_insertionSort keyLe l

theorem sorted_perm_nodupkeys_eq :
    ∀ {l1 l2 : List (String × List Char)}, List.Sorted keyLe l1 → List.Sorted keyLe l2 →
      List.Perm l1 l2 → (l1.map Prod.fst).Nodup → l1 = l2
  | [], l2, _, _, hp, _ => hp.nil_eq
  | p :: t1, [], _, _, hp, _ => absurd hp.symm (by simp)
  | p :: t1, q :: t2, hs1, hs2, hp, hn => by
    have hpq : p = q := by
      by_contra hne
      have hpmem : p ∈ q :: t2 := hp.subset (List.mem_cons_self p t1)
      have hqmem : q ∈ p :: t1 := hp.symm.subset (List.mem_cons_self q t2)
      have hpt2 : p ∈ t2 := by
        rcases List.mem_cons.mp hpmem with h | h
        · exact absurd h hne
        · exact h
      have hqt1 : q ∈ t1 := by
        rcases List.mem_cons.mp hqmem with h | h
        · exact absurd h.symm hne
        · exact h
      have h1 : keyLe p q := List.rel_of_sorted_cons hs1 q hqt1
      have h2 : keyLe q p := List.rel_of_sorted_cons hs2 p hpt2
      have hkey : p.1 = q.1 := le_antisymm h1 h2
      have : p.1 ∈ t1.map Prod.fst := by
        rw [hkey]
        exact List.mem_map_of_mem Prod.fst hqt1
      rw [List.map_cons, List.nodup_cons] at hn
      exact hn.1 this
    subst hpq
    have htail := sorted_perm_nodupkeys_eq
      ((List.sorted_cons.mp hs1).2) ((List.sorted_cons.mp hs2).2)
      (hp.cons_inv) (by rw [List.map_cons, List.nodup_cons] at hn; exact hn.2)
    rw [htail]

theorem structEqPairs_keys :
    ∀ {ps qs : List (String × Jsonv)}, StructEqPairs ps qs →
      ps.map Prod.fst = qs.map Prod.fst
  | _, _, .nil => rfl
  | _, _, .cons k hv hps => by
    simp only [List.map_cons, structEqPairs_keys hps]

mutual

theorem canon_structEq : ∀ {x y : Jsonv}, StructEq x y → nodupDeep x = true → canon x = canon y
  | _, _, .null, _ => rfl
  | _, _, .bool b, _ => rfl
  | _, _, .num i, _ => rfl
  | _, _, .str s, _ => rfl
  | _, _, .arr h, hn => by
    have hl := canonList_structEq h (by simpa [nodupDeep] using hn)
    rw [canon, canon, hl]
  | _, _, @StructEq.obj ps qs' qs hperm hpairs, hn => by
    have hkeys : nodupKeysB (ps.map Prod.fst) = true ∧ nodupDeepPairs ps = true := by
      simpa [nodupDeep, Bool.and_eq_true] using hn
    have hqs' : nodupDeepPairs qs' = true := nodupDeepPairs_perm hperm hkeys.2
    have hcp : canonPairs qs' = canonPairs qs := canonPairs_structEq hpairs hqs'
    have hperm2 : List.Perm (canonPairs ps) (canonPairs qs) := by
      rw [← hcp, canonPairs_eq_map, canonPairs_eq_map]
      exact hperm.map _
    have hnodup : ((canonPairs ps).map Prod.fst).Nodup := by
      rw [canonPairs_keys]
      exact (nodupKeysB_iff _).mp hkeys.1
    have hsorteq : sortPairs (canonPairs ps) = sortPairs (canonPairs qs) := by
      refine sorted_perm_nodupkeys_eq (sortPairs_sorted _) (sortPairs_sorted _)
        ((sortPairs_perm _).trans (hperm2.trans (sortPairs_perm _).symm)) ?_
      exact (((sortPairs_perm (canonPairs ps)).map Prod.fst).nodup_iff).mpr hnodup
    rw [canon, canon, hsorteq]

theorem canonList_structEq :
    ∀ {xs ys : List Jsonv}, StructEqList xs ys → nodupDeepList xs = true →
      canonList xs = canonList ys
  | _, _, .nil, _ => rfl
  | _, _, @StructEqList.cons x y xs ys h hl, hn => by
    have hn' : nodupDeep x = true ∧ nodupDeepList xs = true := by
      simpa [nodupDeepList, Bool.and_eq_true] using hn
    rw [canonList, canonList, canon_structEq h hn'.1, canonList_structEq hl hn'.2]

theorem canonPairs_structEq :
    ∀ {ps qs : List (String × Jsonv)}, StructEqPairs ps qs → nodupDeepPairs ps = true →
      canonPairs ps = canonPairs qs
  | _, _, .nil, _ => rfl
  | _, _, @StructEqPairs.cons k v w ps qs hv hps, hn => by
    have hn' : nodupDeep v = true ∧ nodupDeepPairs ps = true := by
      simpa [nodupDeepPairs, Bool.and_eq_true] using hn
    rw [canonPairs, canonPairs, canon_structEq hv hn'.1, canonPairs_structEq hps hn'.2]

end

theorem sha256_length (msg : List Nat) : (sha256 msg).length = 32 := by
  rw [sha256]
  simp [sha256StateBytes, toBytes4]

/-- C8: `Crypto.digest` is a pure function independent of object key order:
structurally equal JSON-like values (equal up to permutation of object
members at every depth, with duplicate-free keys as JavaScript objects
guarantee) produce byte-identical digests, and the output is always 32
bytes (256 bits). Repeated calls on equal input trivially agree since
`digest` is a function. -/
theorem C8_digest_key_order_independence {x y : Jsonv}
    (h : StructEq x y) (hn : nodupDeep x = true) :
    Crypto.digest x = Crypto.digest y ∧ (Crypto.digest x).length = 32 := by
  constructor
  · rw [Crypto.digest, Crypto.digest, canon_structEq h hn]
  · exact sha256_length _

/-- Witness for C8 at `{a:1, b:2}` and `{b:2, a:1}`. -/
theorem C8_digest_key_order_independence_witness :
    nodupDeep (.obj [("a", .num 1), ("b", .num 2)]) = true ∧
    Crypto.digest (.obj [("a", .num 1), ("b", .num 2)]) =
      Crypto.digest (.obj [("b", .num 2), ("a", .num 1)]) ∧
    (Crypto.digest (.obj [("a", .num 1), ("b", .num 2)])).length = 32 := by
  have hs : StructEq (.obj [("a", .num 1), ("b", .num 2)])
      (.obj [("b", .num 2), ("a", .num 1)]) :=
    @StructEq.obj [("a", Jsonv.num 1), ("b", Jsonv.num 2)]
      [("b", Jsonv.num 2), ("a", Jsonv.num 1)] [("b", Jsonv.num 2), ("a", Jsonv.num 1)]
      (List.Perm.swap ("b", Jsonv.num 2) ("a", Jsonv.num 1) [])
      (.cons "b" (.num 2) (.cons "a" (.num 1) .nil))
  have h := C8_digest_key_order_independence hs (by decide)
  exact ⟨by decide, h.1, h.2⟩
